import Mathlib

/-!
# Book listing (src/main.js)

A shallow embedding of the client-side book browser: the filter/sort engine
(`getFilteredAndSortedBooks`), the render pipeline (`renderBooks`,
`createBookCard`), the pagination state (`fetchBooks`, `loadMoreBooks`,
`initializeApp`) and the interaction handlers, followed by the properties
proved about them.

Strings are lists of characters.  The two string built-ins whose result depends
on Unicode tables or on the locale (`toLowerCase`, `localeCompare`) are fields
of an environment `Env`; `includes`, `join` and `trim` are defined on lists.
A network fetch is split at its suspension point: `fetchBooksStart` runs the
code up to the `await`, `fetchBooksFinish` the code after it, and the handlers
that may run in between are ordinary steps of the session.
-/

namespace BookListing

/-! ## Strings -/

/-- A JavaScript string, as the list of its characters. -/
abbrev Str := List Char

/-- Host built-ins that depend on Unicode tables and on the locale. -/
structure Env where
  /-- Models `String.prototype.toLowerCase`. -/
  toLowerCase : Str → Str
  /-- Models `String.prototype.localeCompare`: negative, zero or positive. -/
  localeCompare : Str → Str → Int

/-- Truthiness of a string: a string is truthy when it is not empty. -/
def truthy (s : Str) : Bool := !s.isEmpty

/-- The expression `x || d` for an optional string `x`: the default replaces a
missing value and the empty string. -/
def orElse (x : Option Str) (d : Str) : Str :=
  match x with
  | some s => if truthy s then s else d
  | none => d

/-- Models `String.prototype.includes`: `search` occurs in `s` as a contiguous
run of characters. -/
def includes (s search : Str) : Bool := decide (search <:+: s)

/-- Models `Array.prototype.join` on an array of strings. -/
def join (sep : Str) (parts : List Str) : Str := sep.intercalate parts

/-- White space and line terminators removed by `String.prototype.trim`. -/
def isWhiteSpace (c : Char) : Bool :=
  c.toNat ∈ [0x09, 0x0A, 0x0B, 0x0C, 0x0D, 0x20, 0xA0, 0x1680, 0x2028, 0x2029,
    0x202F, 0x205F, 0x3000, 0xFEFF] || (0x2000 ≤ c.toNat && c.toNat ≤ 0x200A)

/-- Models `String.prototype.trim`. -/
def trim (s : Str) : Str :=
  ((s.dropWhile isWhiteSpace).reverse.dropWhile isWhiteSpace).reverse

/-! ## Data model -/

/-- The `imageLinks` object of a record. -/
structure ImageLinks where
  thumbnail : Option Str
deriving DecidableEq, Repr

/-- The `volumeInfo` object of a record; every field may be absent. -/
structure VolumeInfo where
  title : Option Str
  authors : Option (List Str)
  publisher : Option Str
  publishedDate : Option Str
  infoLink : Option Str
  imageLinks : Option ImageLinks
deriving DecidableEq, Repr

/-- A book record as delivered by the catalog API. -/
structure Book where
  volumeInfo : Option VolumeInfo
deriving DecidableEq, Repr

/-- Constants of `config`. -/
structure Config where
  debounceDelay : Nat
  perPage : Nat
  initialPage : Nat
  shimmerCount : Nat
  scrollThreshold : Nat
deriving DecidableEq, Repr

/-- The `config` object of the source. -/
def config : Config :=
  { debounceDelay := 300, perPage := 9, initialPage := 1, shimmerCount := 6,
    scrollThreshold := 300 }

/-- The global `state` object. -/
structure State where
  currentPage : Nat
  books : List Book
  hasMoreBooks : Bool
  isLoading : Bool
  searchQuery : Str
  sortBy : Str
  view : Str
deriving DecidableEq, Repr

/-- The value of `state` when the script is loaded. -/
def initialState : State :=
  { currentPage := config.initialPage, books := [], hasMoreBooks := true,
    isLoading := false, searchQuery := [], sortBy := [], view := "grid".toList }

/-- The expression `book?.volumeInfo?.title`. -/
def bookTitle (book : Book) : Option Str := book.volumeInfo.bind (fun v => v.title)

/-- The expression `book?.volumeInfo?.authors`. -/
def bookAuthors (book : Book) : Option (List Str) := book.volumeInfo.bind (fun v => v.authors)

/-- The expression `book?.volumeInfo?.authors?.[0]`. -/
def firstAuthor (book : Book) : Option Str := (bookAuthors book).bind (fun as => as.head?)

/-! ## Filter/sort engine -/

/-- The callback of `books.filter` in `getFilteredAndSortedBooks`. -/
def matchesQuery (env : Env) (searchQuery : Str) (book : Book) : Bool :=
  let title := orElse ((bookTitle book).map env.toLowerCase) []
  let author :=
    orElse (((bookAuthors book).map (join ", ".toList)).map env.toLowerCase) []
  includes title searchQuery || includes author searchQuery

/-- The key compared for `sortBy === "title"`: `a?.volumeInfo?.title || ""`. -/
def titleKey (book : Book) : Str := orElse (bookTitle book) []

/-- The key compared for `sortBy === "author"`: `a?.volumeInfo?.authors?.[0] || ""`. -/
def authorKey (book : Book) : Str := orElse (firstAuthor book) []

/-- The comparator passed to `filteredBooks.sort`. -/
def compareBooks (env : Env) (sortBy : Str) (a b : Book) : Int :=
  if sortBy = "title".toList then env.localeCompare (titleKey a) (titleKey b)
  else if sortBy = "author".toList then env.localeCompare (authorKey a) (authorKey b)
  else 0

/-- Insertion of `a` into a sorted list, before the first element it does not
follow under the comparator. -/
def sortedInsert {α : Type} (cmp : α → α → Int) (a : α) : List α → List α
  | [] => [a]
  | b :: l => if cmp a b ≤ 0 then a :: b :: l else b :: sortedInsert cmp a l

/-- Models `Array.prototype.sort(cmp)`, which is a stable sort: a stable
insertion sort, elements being inserted from the last to the first. -/
def arraySort {α : Type} (cmp : α → α → Int) : List α → List α
  | [] => []
  | a :: l => sortedInsert cmp a (arraySort cmp l)

/-- The function `getFilteredAndSortedBooks(books)`; it reads `state.searchQuery`
and `state.sortBy`. -/
def getFilteredAndSortedBooks (env : Env) (state : State) (books : List Book) : List Book :=
  let filteredBooks :=
    if truthy state.searchQuery then books.filter (matchesQuery env state.searchQuery)
    else books
  if truthy state.sortBy then arraySort (compareBooks env state.sortBy) filteredBooks
  else filteredBooks

/-! ## Display surface -/

/-- The anchor element built by `createBookCard`, with the attributes and
texts the function sets. -/
structure Card where
  href : Str
  target : Str
  rel : Str
  classList : Str
  dataTitle : Str
  dataAuthor : Str
  articleClass : Str
  thumbnailSrc : Str
  thumbnailAlt : Str
  thumbnailClass : Str
  detailsClass : Str
  titleText : Str
  titleClass : Str
  authorsText : Str
  publisherText : Str
  publishedDateText : Str
deriving DecidableEq, Repr

/-- A child node of `#books-container`. -/
inductive Element
  /-- One placeholder produced from `createShimmerElement`. -/
  | shimmer
  /-- The node `elements.loader`. -/
  | loader
  /-- The node `elements.noResult`, whose text is "No books found.". -/
  | noResult
  /-- A `div` created by `showError`, with its text. -/
  | errorMessage (text : Str)
  /-- An anchor created by `createBookCard`. -/
  | card (c : Card)
deriving DecidableEq, Repr

/-- The two pictures `toggleView` writes into the toggle button. -/
inductive Icon
  /-- The picture written when the view is `grid` (it offers the list view). -/
  | listLines
  /-- The picture written when the view is `list` (it offers the grid view). -/
  | gridTiles
deriving DecidableEq, Repr

/-- The part of the document the script reads and writes. -/
structure Dom where
  /-- Children of `elements.booksContainer`, first to last. -/
  booksContainer : List Element
  /-- The `classList` of `elements.booksContainer`. -/
  containerClass : Str
  /-- The content of `elements.viewToggleButton`. -/
  viewToggleButton : Icon
  /-- The `value` of `elements.searchInput`. -/
  searchInputValue : Str
  /-- The `value` of `elements.filterSelect`. -/
  filterSelectValue : Str
deriving DecidableEq, Repr

/-- The text of `elements.noResult`. -/
def noResultText : Str := "No books found.".toList

/-- The text `showError` gives to the message it creates. -/
def errorText : Str := "Failed to load books. Please try again later.".toList

/-- Whether `querySelector(".text-red-500")` matches the node or a descendant:
only the `div` of `showError` carries the class `text-red-500`. -/
def matchesTextRed : Element → Bool
  | Element.errorMessage _ => true
  | _ => false

/-- The call `container.appendChild(node)` for a node that exists once
(`elements.loader`, `elements.noResult`): a node already in the container is
moved to the end. -/
def appendExisting (container : List Element) (node : Element) : List Element :=
  container.filter (fun x => x != node) ++ [node]

/-- The call `container.removeChild(node)`. -/
def removeChild (container : List Element) (node : Element) : List Element :=
  container.erase node

/-! ## Session -/

/-- A request sent to the catalog API: the `limit` and `page` of the URL. -/
structure Request where
  limit : Nat
  page : Nat
deriving DecidableEq, Repr

/-- The outcome of one request, as `fetchBooks` sees it. -/
inductive FetchResult
  /-- The call `fetch(...)` rejects. -/
  | networkError
  /-- The response arrives with `response.ok` false. -/
  | httpError (status : Nat)
  /-- The call `response.json()` rejects. -/
  | invalidJson
  /-- The body is parsed; `data` is `result?.data?.data`. -/
  | ok (data : Option (List Book))
deriving DecidableEq, Repr

/-- The function suspended on `await fetchBooks()`. -/
inductive Caller
  | initializeApp
  | loadMoreBooks
deriving DecidableEq, Repr

/-- A fetch in flight: the request it sent and the function that awaits it. -/
structure Pending where
  caller : Caller
  request : Request
deriving DecidableEq, Repr

/-- The session: the `state` object, the document, and the bookkeeping of
the network (requests sent, fetches awaiting their response, outcomes
delivered) and of the listeners. -/
structure World where
  state : State
  dom : Dom
  /-- Requests sent so far, oldest first. -/
  requests : List Request
  /-- Fetches that await their response, oldest first. -/
  inflight : List Pending
  /-- Requests answered so far with their outcomes, in the order of the answers. -/
  completed : List (Request × FetchResult)
  /-- Whether `initializeApp` has registered the listeners. -/
  listening : Bool
deriving DecidableEq, Repr

/-- The function `setLoadingState(isLoading, isInitial)`. -/
def setLoadingState (w : World) (isLoading : Bool) (isInitial : Bool) : World :=
  let w := { w with state := { w.state with isLoading := isLoading } }
  if isLoading then
    if isInitial then
      { w with dom := { w.dom with
          booksContainer := List.replicate config.shimmerCount Element.shimmer } }
    else
      { w with dom := { w.dom with
          booksContainer := appendExisting w.dom.booksContainer Element.loader } }
  else if w.dom.booksContainer.contains Element.loader then
    { w with dom := { w.dom with
        booksContainer := removeChild w.dom.booksContainer Element.loader } }
  else w

/-- The function `showError(error)`. -/
def showError (w : World) : World :=
  let w := { w with state := { w.state with hasMoreBooks := false, isLoading := false } }
  let errorMessage := Element.errorMessage errorText
  if !(w.dom.booksContainer.any matchesTextRed) then
    { w with dom := { w.dom with booksContainer := w.dom.booksContainer ++ [errorMessage] } }
  else w

/-- The function `createBookCard(book)`; it reads `state.view`. -/
def createBookCard (state : State) (book : Book) : Card :=
  let grid : Bool := state.view == "grid".toList
  let baseClasses : Str :=
    "block shadow-lg rounded-lg p-2 mb-4 hover:shadow-xl transition-shadow duration-300".toList
  let gridClasses : Str := "w-full sm:w-80 text-center".toList
  let listClasses : Str := "flex w-full items-start space-x-4".toList
  let thumbnailBaseClasses : Str := "object-cover rounded-t-lg".toList
  let gridThumbnailClasses : Str := "h-40 mx-auto".toList
  let listThumbnailClasses : Str := "h-24 w-24 flex-shrink-0".toList
  { href := orElse (book.volumeInfo.bind (fun v => v.infoLink)) "#".toList
    target := "_blank".toList
    rel := "noopener noreferrer".toList
    classList :=
      if grid then baseClasses ++ " ".toList ++ gridClasses
      else baseClasses ++ " ".toList ++ listClasses
    dataTitle := orElse (bookTitle book) []
    dataAuthor := orElse ((bookAuthors book).map (join ", ".toList)) []
    articleClass := if grid then "block".toList else "flex flex-1 items-start".toList
    thumbnailSrc :=
      orElse ((book.volumeInfo.bind (fun v => v.imageLinks)).bind (fun l => l.thumbnail))
        "https://via.placeholder.com/150x200?text=No+Cover".toList
    thumbnailAlt := orElse (bookTitle book) "Book cover".toList
    thumbnailClass :=
      if grid then thumbnailBaseClasses ++ " ".toList ++ gridThumbnailClasses
      else thumbnailBaseClasses ++ " ".toList ++ listThumbnailClasses
    detailsClass := if grid then "mt-2 text-center".toList else "flex-1 ml-4".toList
    titleText := orElse (bookTitle book) "Untitled Book".toList
    titleClass :=
      if grid then "text-lg font-semibold mt-2 line-clamp-2".toList
      else "text-lg font-semibold".toList
    authorsText :=
      "By: ".toList ++ orElse ((bookAuthors book).map (join ", ".toList)) "Unknown".toList
    publisherText :=
      "Publisher: ".toList
        ++ orElse (book.volumeInfo.bind (fun v => v.publisher)) "Unknown".toList
    publishedDateText :=
      "Published: ".toList
        ++ orElse (book.volumeInfo.bind (fun v => v.publishedDate)) "Unknown".toList }

/-- The function `renderBooks(books)`. -/
def renderBooks (env : Env) (w : World) (books : List Book) : World :=
  let container : List Element := []
  let container :=
    if container.contains Element.noResult then removeChild container Element.noResult
    else container
  if books.length = 0 then
    { w with dom := { w.dom with booksContainer := appendExisting container Element.noResult } }
  else
    let booksToRender := getFilteredAndSortedBooks env w.state books
    if booksToRender.length = 0 then
      { w with dom := { w.dom with
          booksContainer := appendExisting container Element.noResult } }
    else
      let fragment := booksToRender.map (fun book => Element.card (createBookCard w.state book))
      { w with dom := { w.dom with booksContainer := container ++ fragment } }

/-- The function `filterAndSortBooks(query, sortBy)`. -/
def filterAndSortBooks (env : Env) (w : World) (query : Str) (sortBy : Str) : World :=
  let w := { w with state := { w.state with searchQuery := query, sortBy := sortBy } }
  renderBooks env w w.state.books

/-- The function `handleSearch(event)`; `value` is `event.target.value`. -/
def handleSearch (env : Env) (w : World) (value : Str) : World :=
  let query := trim (env.toLowerCase value)
  filterAndSortBooks env w query w.state.sortBy

/-- The function `handleSort(event)`; `value` is `event.target.value`. -/
def handleSort (env : Env) (w : World) (value : Str) : World :=
  let sortBy := value
  filterAndSortBooks env w w.state.searchQuery sortBy

/-- The function `toggleView()`. -/
def toggleView (env : Env) (w : World) : World :=
  let view : Str := if w.state.view == "grid".toList then "list".toList else "grid".toList
  let w := { w with state := { w.state with view := view } }
  let baseClasses : Str := "grid p-4".toList
  let gridClasses : Str := "grid-cols-3 gap-4".toList
  let listClasses : Str := "grid-cols-1 gap-8".toList
  let w := { w with dom := { w.dom with
    containerClass :=
      if w.state.view == "grid".toList then baseClasses ++ " ".toList ++ gridClasses
      else baseClasses ++ " ".toList ++ listClasses
    viewToggleButton :=
      if w.state.view == "grid".toList then Icon.listLines else Icon.gridTiles } }
  renderBooks env w w.state.books

/-- The function `resetFilters()`. -/
def resetFilters (env : Env) (w : World) : World :=
  let w := { w with dom := { w.dom with searchInputValue := [], filterSelectValue := [] } }
  let w := { w with state := { w.state with searchQuery := [], sortBy := [] } }
  renderBooks env w w.state.books

/-- The listener `initializeApp` registers for `change` on the sort selection;
`value` is `event.target.value`. -/
def onFilterChange (env : Env) (w : World) (value : Str) : World :=
  let sortBy := value
  if !(truthy sortBy) then resetFilters env w else handleSort env w value

/-- The function `fetchBooks()` up to `await fetch(...)`: the loading state is
set and the request for `state.currentPage` is sent; `caller` is the function
that awaits the result. -/
def fetchBooksStart (w : World) (caller : Caller) : World :=
  let isInitialLoad : Bool := w.state.currentPage == config.initialPage
  let w := setLoadingState w true isInitialLoad
  let request : Request := { limit := config.perPage, page := w.state.currentPage }
  { w with
    requests := w.requests ++ [request]
    inflight := w.inflight ++ [{ caller := caller, request := request }] }

/-- The function `fetchBooks()` from the resumption after `await fetch(...)` to its
return, for the outcome `r` of the request: the world it leaves and the array it
returns. -/
def fetchBooksFinish (w : World) (r : FetchResult) : World × List Book :=
  match r with
  | FetchResult.ok data =>
    let books := data.getD []
    let w :=
      if books.length < config.perPage then
        { w with state := { w.state with hasMoreBooks := false } }
      else w
    (setLoadingState w false false, books)
  | _ =>
    let w := showError w
    (setLoadingState w false false, [])

/-- The function `initializeApp()` up to `await fetchBooks()`. -/
def initializeAppStart (w : World) : World :=
  fetchBooksStart w Caller.initializeApp

/-- The function `initializeApp()` after `await fetchBooks()`, with the array the
fetch returned. -/
def initializeAppFinish (env : Env) (w : World) (books : List Book) : World :=
  let w := { w with state := { w.state with books := books } }
  let w := renderBooks env w books
  { w with listening := true }

/-- The function `loadMoreBooks()` up to `await fetchBooks()`. -/
def loadMoreBooks (w : World) : World :=
  if w.state.isLoading || !w.state.hasMoreBooks then w
  else
    let w := { w with state := { w.state with currentPage := w.state.currentPage + 1 } }
    fetchBooksStart w Caller.loadMoreBooks

/-- The function `loadMoreBooks()` after `await fetchBooks()`, with the array the
fetch returned. -/
def loadMoreBooksFinish (env : Env) (w : World) (newBooks : List Book) : World :=
  if newBooks.length > 0 then
    let w := { w with state := { w.state with books := w.state.books ++ newBooks } }
    renderBooks env w w.state.books
  else w

/-- The function `handleScroll()`, with the three measures it reads from
`document.documentElement`. -/
def handleScroll (w : World) (scrollTop scrollHeight clientHeight : Int) : World :=
  if w.state.isLoading || !w.state.hasMoreBooks then w
  else if scrollTop + clientHeight ≥ scrollHeight - (config.scrollThreshold : Int) then
    loadMoreBooks w
  else w

/-- The response to the `i`-th fetch in flight arrives with outcome `r`:
`fetchBooks` finishes and the function awaiting it continues.  Without such a
fetch nothing happens. -/
def deliver (env : Env) (w : World) (i : Nat) (r : FetchResult) : World :=
  match w.inflight[i]? with
  | none => w
  | some pending =>
    let w := { w with
      inflight := w.inflight.eraseIdx i
      completed := w.completed ++ [(pending.request, r)] }
    let (w, books) := fetchBooksFinish w r
    match pending.caller with
    | Caller.initializeApp => initializeAppFinish env w books
    | Caller.loadMoreBooks => loadMoreBooksFinish env w books

/-- What can happen after the script has started. -/
inductive Event
  /-- The debounced `input` listener fires; the search box holds `value`. -/
  | input (value : Str)
  /-- The `change` listener fires; the sort selection holds `value`. -/
  | change (value : Str)
  /-- The `click` listener of the toggle button fires. -/
  | click
  /-- The debounced `scroll` listener fires, with the measures of the document. -/
  | scroll (scrollTop scrollHeight clientHeight : Int)
  /-- The response to the `i`-th fetch in flight arrives. -/
  | response (i : Nat) (r : FetchResult)
deriving DecidableEq, Repr

/-- One step of the session.  A listener runs only once `initializeApp` has
registered it. -/
def step (env : Env) (w : World) : Event → World
  | Event.input value =>
    if w.listening then
      handleSearch env { w with dom := { w.dom with searchInputValue := value } } value
    else w
  | Event.change value =>
    if w.listening then
      onFilterChange env { w with dom := { w.dom with filterSelectValue := value } } value
    else w
  | Event.click => if w.listening then toggleView env w else w
  | Event.scroll scrollTop scrollHeight clientHeight =>
    if w.listening then handleScroll w scrollTop scrollHeight clientHeight else w
  | Event.response i r => deliver env w i r

/-- The session when the script has been loaded into the document `page`. -/
def loaded (page : Dom) : World :=
  { state := initialState, dom := page, requests := [], inflight := [], completed := [],
    listening := false }

/-- The session once `DOMContentLoaded` has called `initializeApp`. -/
def boot (page : Dom) : World := initializeAppStart (loaded page)

/-- The session after a sequence of events. -/
def run (env : Env) (w : World) (events : List Event) : World :=
  events.foldl (step env) w

/-- The worlds a session can reach from some document. -/
inductive Reachable (env : Env) : World → Prop
  | boot (page : Dom) : Reachable env (boot page)
  | step {w : World} (ev : Event) : Reachable env w → Reachable env (step env w ev)

/-- The array `fetchBooks` returns for an outcome: the records of a successful
fetch, nothing for a failed one. -/
def returnedBooks : FetchResult → List Book
  | FetchResult.ok data => data.getD []
  | _ => []

/-- Whether an outcome is a successful fetch. -/
def succeeded : FetchResult → Bool
  | FetchResult.ok _ => true
  | _ => false

/-- The number of error messages among the children of the container. -/
def errorMessageCount (container : List Element) : Nat :=
  container.count (Element.errorMessage errorText)

/-- The retention condition as the specification words it: the query is empty,
or the lower-cased title (the empty string when missing) contains it, or the
lower-cased comma-joined author list (the empty string when missing) contains it. -/
def specRetained (env : Env) (searchQuery : Str) (book : Book) : Prop :=
  searchQuery = []
    ∨ searchQuery <:+: orElse ((bookTitle book).map env.toLowerCase) []
    ∨ searchQuery <:+:
        orElse (((bookAuthors book).map (join ", ".toList)).map env.toLowerCase) []

instance (env : Env) (searchQuery : Str) (book : Book) :
    Decidable (specRetained env searchQuery book) :=
  inferInstanceAs (Decidable (_ ∨ _ ∨ _))

/-- The sort key as the specification words it, read off the record itself: for
`title` the title of the record, for `author` the first listed author only, and
the empty string when the record has no such field. -/
def specSortKey (sortBy : Str) (book : Book) : Str :=
  if sortBy = "title".toList then
    match book.volumeInfo with
    | some { title := some title, .. } => title
    | _ => []
  else
    match book.volumeInfo with
    | some { authors := some (first :: _), .. } => first
    | _ => []

/-- The children of the container that show a derived list: the placeholder
alone for an empty list, otherwise one card per record, in order. -/
def displayOf (state : State) (derived : List Book) : List Element :=
  if derived = [] then [Element.noResult]
  else derived.map (fun book => Element.card (createBookCard state book))

/-- The second world differs from the first only in the view settings, the
listeners and what is shown, and it shows no error message. -/
def ViewStep (w w' : World) : Prop :=
  w'.state.currentPage = w.state.currentPage ∧ w'.state.books = w.state.books
    ∧ w'.state.hasMoreBooks = w.state.hasMoreBooks ∧ w'.state.isLoading = w.state.isLoading
    ∧ w'.requests = w.requests ∧ w'.inflight = w.inflight ∧ w'.completed = w.completed
    ∧ w'.dom.booksContainer.any matchesTextRed = false

/-- The invariant of a session. -/
structure Inv (w : World) : Prop where
  /-- The page counter is the number of requests sent. -/
  current : w.state.currentPage = w.requests.length
  /-- The requests sent are for the pages 1, 2, ... in this order. -/
  pages : w.requests.map Request.page = List.range' 1 w.requests.length
  /-- The requests answered are those for the pages 1, 2, ... in this order. -/
  answered : w.completed.map (fun c => c.1.page) = List.range' 1 w.completed.length
  /-- The accumulated list is the concatenation of what the fetches returned. -/
  books : w.state.books = (w.completed.map (fun c => returnedBooks c.2)).flatten
  /-- Either no fetch is in flight, or exactly one is, for the last page requested. -/
  flight :
    (w.inflight = [] ∧ w.state.isLoading = false ∧ w.completed.length = w.requests.length)
    ∨ (∃ caller,
        w.inflight
            = [{ caller := caller
                 request := { limit := config.perPage, page := w.requests.length } }]
          ∧ w.state.isLoading = true ∧ w.state.hasMoreBooks = true
          ∧ w.completed.length + 1 = w.requests.length
          ∧ (caller = Caller.initializeApp → w.completed = []))
  /-- While more pages are expected, no error message is shown. -/
  noError : w.state.hasMoreBooks = true → w.dom.booksContainer.any matchesTextRed = false

/-! ## Closed examples -/

/-- Comparison of two strings by code points, first difference first. -/
def codePointCompare : Str → Str → Int
  | [], [] => 0
  | [], _ :: _ => -1
  | _ :: _, [] => 1
  | a :: as, b :: bs =>
    if a.toNat < b.toNat then -1
    else if b.toNat < a.toNat then 1
    else codePointCompare as bs

/-- An environment for closed examples: ASCII lower-casing and the
lexicographic order of code points. -/
def asciiEnv : Env :=
  { toLowerCase := fun s => s.map Char.toLower
    localeCompare := codePointCompare }

/-- A record with the given title and authors and nothing else. -/
def mkBook (title : Option String) (authors : Option (List String)) : Book :=
  { volumeInfo := some
      { title := title.map String.toList
        authors := authors.map (List.map String.toList)
        publisher := none, publishedDate := none, infoLink := none, imageLinks := none } }

/-- A document whose container is empty. -/
def emptyPage : Dom :=
  { booksContainer := [], containerClass := [], viewToggleButton := Icon.listLines,
    searchInputValue := [], filterSelectValue := [] }

/-- A page of nine records. -/
def ninePage : List Book :=
  [mkBook (some "Dune") (some ["Frank Herbert"]),
   mkBook (some "The Hobbit") (some ["J.R.R. Tolkien"]),
   mkBook (some "Emma") (some ["Jane Austen"]),
   mkBook none (some ["Anonymous"]),
   mkBook (some "Ulysses") (some ["James Joyce"]),
   mkBook (some "Emma") (some ["Another Author"]),
   mkBook (some "Beloved") none,
   { volumeInfo := none },
   mkBook (some "Ficciones") (some ["Jorge Luis Borges", "A. Kerrigan"])]

/-- A short page of four records. -/
def fourPage : List Book := ninePage.take 4

/-! ## The stable sort -/

theorem sortedInsert_perm {α : Type} (cmp : α → α → Int) (a : α) (l : List α) :
    (sortedInsert cmp a l).Perm (a :: l) := by
  induction l with
  | nil => exact List.Perm.refl _
  | cons b l ih =>
    unfold sortedInsert
    split
    · exact List.Perm.refl _
    · exact (List.Perm.cons b ih).trans (List.Perm.swap a b l)

theorem arraySort_perm {α : Type} (cmp : α → α → Int) (l : List α) :
    (arraySort cmp l).Perm l := by
  induction l with
  | nil => exact List.Perm.refl _
  | cons a l ih =>
    unfold arraySort
    exact (sortedInsert_perm cmp a _).trans (List.Perm.cons a ih)

theorem sortedInsert_pairwise {α : Type} (cmp : α → α → Int)
    (htotal : ∀ a b, cmp a b ≤ 0 ∨ cmp b a ≤ 0)
    (htrans : ∀ a b c, cmp a b ≤ 0 → cmp b c ≤ 0 → cmp a c ≤ 0)
    (a : α) (l : List α) (hl : l.Pairwise (fun x y => cmp x y ≤ 0)) :
    (sortedInsert cmp a l).Pairwise (fun x y => cmp x y ≤ 0) := by
  induction l with
  | nil => simp [sortedInsert]
  | cons b l ih =>
    rw [List.pairwise_cons] at hl
    unfold sortedInsert
    split
    · rename_i hab
      refine List.Pairwise.cons ?_ (List.Pairwise.cons hl.1 hl.2)
      intro y hy
      rcases List.mem_cons.1 hy with rfl | hy
      · exact hab
      · exact htrans _ _ _ hab (hl.1 y hy)
    · rename_i hab
      have hba : cmp b a ≤ 0 := (htotal a b).resolve_left hab
      refine List.Pairwise.cons ?_ (ih hl.2)
      intro y hy
      rcases List.mem_cons.1 ((sortedInsert_perm cmp a l).subset hy) with rfl | hy
      · exact hba
      · exact hl.1 y hy

theorem arraySort_pairwise {α : Type} (cmp : α → α → Int)
    (htotal : ∀ a b, cmp a b ≤ 0 ∨ cmp b a ≤ 0)
    (htrans : ∀ a b c, cmp a b ≤ 0 → cmp b c ≤ 0 → cmp a c ≤ 0) (l : List α) :
    (arraySort cmp l).Pairwise (fun x y => cmp x y ≤ 0) := by
  induction l with
  | nil => simp [arraySort]
  | cons a l ih =>
    unfold arraySort
    exact sortedInsert_pairwise cmp htotal htrans a _ ih

theorem sortedInsert_filter_pos {α : Type} (cmp : α → α → Int) (p : α → Bool) (a : α)
    (hpa : p a = true) (hcls : ∀ b, p b = true → cmp a b ≤ 0) (l : List α) :
    (sortedInsert cmp a l).filter p = a :: l.filter p := by
  induction l with
  | nil => simp [sortedInsert, hpa]
  | cons b l ih =>
    unfold sortedInsert
    split
    · simp [List.filter_cons, hpa]
    · rename_i hab
      have hpb : p b = false := by
        cases h : p b
        · rfl
        · exact absurd (hcls b h) hab
      simp [List.filter_cons, hpb, ih]

theorem sortedInsert_filter_neg {α : Type} (cmp : α → α → Int) (p : α → Bool) (a : α)
    (hpa : p a = false) (l : List α) :
    (sortedInsert cmp a l).filter p = l.filter p := by
  induction l with
  | nil => simp [sortedInsert, hpa]
  | cons b l ih =>
    unfold sortedInsert
    split
    · simp [List.filter_cons, hpa]
    · simp [List.filter_cons, ih]

/-- Stability of the sort: the elements of a class whose members do not follow
one another under the comparator keep their order. -/
theorem arraySort_filter {α : Type} (cmp : α → α → Int) (p : α → Bool)
    (hcls : ∀ a b, p a = true → p b = true → cmp a b ≤ 0) (l : List α) :
    (arraySort cmp l).filter p = l.filter p := by
  induction l with
  | nil => simp [arraySort]
  | cons a l ih =>
    unfold arraySort
    cases hpa : p a
    · rw [sortedInsert_filter_neg cmp p a hpa, ih]
      simp [List.filter_cons, hpa]
    · rw [sortedInsert_filter_pos cmp p a hpa (fun b hb => hcls a b hpa hb), ih]
      simp [List.filter_cons, hpa]

/-! ## The filter -/

theorem truthy_iff (s : Str) : truthy s = true ↔ s ≠ [] := by
  cases s <;> simp [truthy]

theorem matchesQuery_iff (env : Env) (q : Str) (book : Book) :
    matchesQuery env q book = true ↔
      (q <:+: orElse ((bookTitle book).map env.toLowerCase) []
        ∨ q <:+: orElse (((bookAuthors book).map (join ", ".toList)).map env.toLowerCase) []) := by
  simp [matchesQuery, includes]

theorem specRetained_iff (env : Env) (q : Str) (book : Book) :
    specRetained env q book ↔ (truthy q = true → matchesQuery env q book = true) := by
  rw [matchesQuery_iff, truthy_iff]
  unfold specRetained
  constructor
  · rintro (h | h) hq
    · exact absurd h hq
    · exact h
  · intro h
    by_cases hq : q = []
    · exact Or.inl hq
    · exact Or.inr (h hq)

/-- The filtering step of `getFilteredAndSortedBooks` keeps the records the
specification retains. -/
theorem filterStep_eq (env : Env) (q : Str) (books : List Book) :
    (if truthy q then books.filter (matchesQuery env q) else books)
      = books.filter (fun b => decide (specRetained env q b)) := by
  cases hq : truthy q
  · have : ∀ b ∈ books, decide (specRetained env q b) = true := by
      intro b _
      simp [specRetained_iff, hq]
    simp [List.filter_eq_self.2 this]
  · simp only [if_true]
    apply List.filter_congr
    intro b _
    simp [specRetained_iff, hq]

theorem getFilteredAndSortedBooks_eq (env : Env) (state : State) (books : List Book) :
    getFilteredAndSortedBooks env state books
      = if truthy state.sortBy then
          arraySort (compareBooks env state.sortBy)
            (books.filter (fun b => decide (specRetained env state.searchQuery b)))
        else books.filter (fun b => decide (specRetained env state.searchQuery b)) := by
  unfold getFilteredAndSortedBooks
  simp only [filterStep_eq]

theorem titleKey_eq (book : Book) : titleKey book = specSortKey "title".toList book := by
  rcases book with ⟨_ | ⟨_ | title, authors, publisher, publishedDate, infoLink, imageLinks⟩⟩
  · rfl
  · rfl
  · cases title <;> simp [titleKey, bookTitle, orElse, truthy, specSortKey]

theorem authorKey_eq (book : Book) : authorKey book = specSortKey "author".toList book := by
  have hne : ¬ ("author".toList = "title".toList) := by decide
  rcases book with ⟨_ | ⟨title, _ | authors, publisher, publishedDate, infoLink, imageLinks⟩⟩
  · simp [authorKey, firstAuthor, bookAuthors, orElse, specSortKey, hne]
  · simp [authorKey, firstAuthor, bookAuthors, orElse, specSortKey, hne]
  · cases authors with
    | nil => simp [authorKey, firstAuthor, bookAuthors, orElse, specSortKey, hne]
    | cons first others =>
      cases first <;>
        simp [authorKey, firstAuthor, bookAuthors, orElse, truthy, specSortKey, hne]

/-- The comparator of the sort compares the keys of the specification. -/
theorem compareBooks_eq (env : Env) (sortBy : Str)
    (hkey : sortBy = "title".toList ∨ sortBy = "author".toList) (a b : Book) :
    compareBooks env sortBy a b
      = env.localeCompare (specSortKey sortBy a) (specSortKey sortBy b) := by
  rcases hkey with h | h
  · subst h
    simp [compareBooks, titleKey_eq]
  · subst h
    have hne : ¬ ("author".toList = "title".toList) := by decide
    simp [compareBooks, authorKey_eq, hne]

/-- A list sorted under a relation splits into the elements of a class closed
under predecessors, followed by the other elements. -/
theorem pairwise_filter_split {α : Type} (le : α → α → Prop) (p : α → Bool) (l : List α)
    (hl : l.Pairwise le) (hdown : ∀ a b, le a b → p b = true → p a = true) :
    l = l.filter p ++ l.filter (fun x => !p x) := by
  induction l with
  | nil => rfl
  | cons a l ih =>
    rw [List.pairwise_cons] at hl
    cases hpa : p a
    · have hnone : ∀ y ∈ l, p y = false := by
        intro y hy
        cases hpy : p y
        · rfl
        · rw [hdown a y (hl.1 y hy) hpy] at hpa
          exact absurd hpa (by decide)
      have h1 : l.filter p = [] := by
        rw [List.filter_eq_nil_iff]
        intro y hy
        simp [hnone y hy]
      have h2 : l.filter (fun x => !p x) = l := by
        rw [List.filter_eq_self]
        intro y hy
        simp [hnone y hy]
      simp [List.filter_cons, hpa, h1, h2]
    · have := ih hl.2
      simp only [List.filter_cons, hpa, if_true, Bool.not_true, List.cons_append]
      simp only [Bool.false_eq_true, if_false]
      exact congrArg (List.cons a) this

theorem codePointCompare_nil (s : Str) : codePointCompare [] s ≤ 0 := by
  cases s <;> simp [codePointCompare]

theorem truthy_of_key (sortBy : Str)
    (hkey : sortBy = "title".toList ∨ sortBy = "author".toList) : truthy sortBy = true := by
  rcases hkey with h | h <;> subst h <;> decide

theorem codePointCompare_total (a b : Str) :
    codePointCompare a b ≤ 0 ∨ codePointCompare b a ≤ 0 := by
  induction a generalizing b with
  | nil => cases b <;> simp [codePointCompare]
  | cons x a ih =>
    cases b with
    | nil => simp [codePointCompare]
    | cons y b =>
      simp only [codePointCompare]
      by_cases h1 : x.toNat < y.toNat
      · simp [h1]
      · by_cases h2 : y.toNat < x.toNat
        · simp [h2]
        · simpa [h1, h2] using ih b

theorem codePointCompare_trans (a b c : Str) (hab : codePointCompare a b ≤ 0)
    (hbc : codePointCompare b c ≤ 0) : codePointCompare a c ≤ 0 := by
  induction a generalizing b c with
  | nil => cases c <;> simp [codePointCompare]
  | cons x a ih =>
    cases b with
    | nil => simp [codePointCompare] at hab
    | cons y b =>
      cases c with
      | nil => simp [codePointCompare] at hbc
      | cons z c =>
        simp only [codePointCompare] at hab hbc ⊢
        by_cases h1 : x.toNat < y.toNat
        · by_cases h3 : y.toNat < z.toNat
          · have : x.toNat < z.toNat := by omega
            simp [this]
          · by_cases h4 : z.toNat < y.toNat
            · simp [h3, h4] at hbc
            · have : x.toNat < z.toNat := by omega
              simp [this]
        · by_cases h2 : y.toNat < x.toNat
          · simp [h1, h2] at hab
          · simp only [h1, h2, if_false] at hab
            by_cases h3 : y.toNat < z.toNat
            · have : x.toNat < z.toNat := by omega
              simp [this]
            · by_cases h4 : z.toNat < y.toNat
              · simp [h3, h4] at hbc
              · simp only [h3, h4, if_false] at hbc
                have h5 : ¬ x.toNat < z.toNat := by omega
                have h6 : ¬ z.toNat < x.toNat := by omega
                simp only [h5, h6, if_false]
                exact ih b c hab hbc

/-! ## Claims on the filter/sort engine -/

/-- C1: a record is in the output of `getFilteredAndSortedBooks` if and only if it
is in the input and the query is empty, or the lower-cased title (the empty
string when missing) contains the query, or the lower-cased joined author list
(the empty string when missing) contains it; the output is a rearrangement of
the retained records; and when exactly one record of the input is retained,
the output is exactly that record. -/
theorem getFilteredAndSortedBooks_mem_iff (env : Env) (state : State) (books : List Book) :
    (∀ b, b ∈ getFilteredAndSortedBooks env state books ↔
      b ∈ books ∧
        (state.searchQuery = []
          ∨ state.searchQuery <:+: orElse ((bookTitle b).map env.toLowerCase) []
          ∨ state.searchQuery <:+:
              orElse (((bookAuthors b).map (join ", ".toList)).map env.toLowerCase) []))
    ∧ (getFilteredAndSortedBooks env state books).Perm
        (books.filter (fun b => decide (specRetained env state.searchQuery b)))
    ∧ (∀ front b back, books = front ++ b :: back →
        specRetained env state.searchQuery b →
        (∀ x ∈ front ++ back, ¬ specRetained env state.searchQuery x) →
        getFilteredAndSortedBooks env state books = [b]) := by
  have hperm : (getFilteredAndSortedBooks env state books).Perm
      (books.filter (fun b => decide (specRetained env state.searchQuery b))) := by
    rw [getFilteredAndSortedBooks_eq]
    split
    · exact arraySort_perm _ _
    · exact List.Perm.refl _
  refine ⟨?_, hperm, ?_⟩
  · intro b
    rw [hperm.mem_iff, List.mem_filter]
    simp [specRetained]
  · intro front b back hbooks hb hrest
    have hfront : front.filter (fun b => decide (specRetained env state.searchQuery b)) = [] := by
      rw [List.filter_eq_nil_iff]
      intro x hx
      simpa using hrest x (List.mem_append_left _ hx)
    have hback : back.filter (fun b => decide (specRetained env state.searchQuery b)) = [] := by
      rw [List.filter_eq_nil_iff]
      intro x hx
      simpa using hrest x (List.mem_append_right _ hx)
    have hfilter : books.filter (fun b => decide (specRetained env state.searchQuery b)) = [b] := by
      rw [hbooks, List.filter_append, List.filter_cons, hfront, hback]
      simp [hb]
    rw [getFilteredAndSortedBooks_eq, hfilter]
    split
    · rfl
    · rfl

/-- C2: for `sortBy` equal to `title` or `author` and a comparison of strings that
is total and transitive, the comparator of the sort compares the keys of the
specification (the title for `title`, the first listed author only for
`author`, the empty string when the record has none); the output of
`getFilteredAndSortedBooks` is a permutation of the retained records; it is
non-decreasing under the comparison of these keys; records with equal keys (and
more generally with keys that the comparison does not separate) keep their
relative input order; and when no string compares before the empty string, the
output begins with all the retained records whose key is not after the empty
string, those without a key among them, in input order, followed by the
others. -/
theorem getFilteredAndSortedBooks_sorted_stable (env : Env) (state : State)
    (books : List Book)
    (hkey : state.sortBy = "title".toList ∨ state.sortBy = "author".toList)
    (htotal : ∀ a b, env.localeCompare a b ≤ 0 ∨ env.localeCompare b a ≤ 0)
    (htrans : ∀ a b c, env.localeCompare a b ≤ 0 → env.localeCompare b c ≤ 0 →
      env.localeCompare a c ≤ 0) :
    (∀ a b, compareBooks env state.sortBy a b
        = env.localeCompare (specSortKey state.sortBy a) (specSortKey state.sortBy b))
    ∧ (∀ b v title, b.volumeInfo = some v → v.title = some title →
        specSortKey "title".toList b = title)
    ∧ (∀ b v first others, b.volumeInfo = some v → v.authors = some (first :: others) →
        specSortKey "author".toList b = first)
    ∧ (∀ b, (b.volumeInfo = none ∨ ∃ v, b.volumeInfo = some v ∧ v.title = none) →
        specSortKey "title".toList b = [])
    ∧ (∀ b, (b.volumeInfo = none
          ∨ ∃ v, b.volumeInfo = some v ∧ (v.authors = none ∨ v.authors = some [])) →
        specSortKey "author".toList b = [])
    ∧ (getFilteredAndSortedBooks env state books).Perm
        (books.filter (fun b => decide (specRetained env state.searchQuery b)))
    ∧ (getFilteredAndSortedBooks env state books).Pairwise
        (fun a b =>
          env.localeCompare (specSortKey state.sortBy a) (specSortKey state.sortBy b) ≤ 0)
    ∧ (∀ k, (getFilteredAndSortedBooks env state books).filter
              (fun b => decide (specSortKey state.sortBy b = k))
          = (books.filter (fun b => decide (specRetained env state.searchQuery b))).filter
              (fun b => decide (specSortKey state.sortBy b = k)))
    ∧ (∀ k, (getFilteredAndSortedBooks env state books).filter
              (fun b => decide (env.localeCompare (specSortKey state.sortBy b) k ≤ 0
                ∧ env.localeCompare k (specSortKey state.sortBy b) ≤ 0))
          = (books.filter (fun b => decide (specRetained env state.searchQuery b))).filter
              (fun b => decide (env.localeCompare (specSortKey state.sortBy b) k ≤ 0
                ∧ env.localeCompare k (specSortKey state.sortBy b) ≤ 0)))
    ∧ ((∀ s, env.localeCompare [] s ≤ 0) →
        getFilteredAndSortedBooks env state books
          = (books.filter (fun b => decide (specRetained env state.searchQuery b))).filter
              (fun b => decide (env.localeCompare (specSortKey state.sortBy b) [] ≤ 0))
            ++ (getFilteredAndSortedBooks env state books).filter
              (fun b => !decide (env.localeCompare (specSortKey state.sortBy b) [] ≤ 0))) := by
  have hcmp : compareBooks env state.sortBy
      = fun a b =>
          env.localeCompare (specSortKey state.sortBy a) (specSortKey state.sortBy b) := by
    funext a b
    exact compareBooks_eq env state.sortBy hkey a b
  have hout : getFilteredAndSortedBooks env state books
      = arraySort (compareBooks env state.sortBy)
          (books.filter (fun b => decide (specRetained env state.searchQuery b))) := by
    rw [getFilteredAndSortedBooks_eq, truthy_of_key state.sortBy hkey]
    rfl
  have hsorted : (getFilteredAndSortedBooks env state books).Pairwise
      (fun a b =>
        env.localeCompare (specSortKey state.sortBy a) (specSortKey state.sortBy b) ≤ 0) := by
    rw [hout, hcmp]
    exact arraySort_pairwise
      (fun a b =>
        env.localeCompare (specSortKey state.sortBy a) (specSortKey state.sortBy b))
      (fun a b => htotal (specSortKey state.sortBy a) (specSortKey state.sortBy b))
      (fun a b c => htrans (specSortKey state.sortBy a) (specSortKey state.sortBy b)
        (specSortKey state.sortBy c)) _
  have hne : ¬ ("author".toList = "title".toList) := by decide
  refine ⟨compareBooks_eq env state.sortBy hkey, ?_, ?_, ?_, ?_, ?_, hsorted, ?_, ?_, ?_⟩
  · intro b v title hv ht
    obtain ⟨t, a, p, d, i, l⟩ := v
    simp only at ht
    subst ht
    simp [specSortKey, hv]
  · intro b v first others hv ha
    obtain ⟨t, a, p, d, i, l⟩ := v
    simp only at ha
    subst ha
    simp [specSortKey, hv, hne]
  · intro b hb
    rcases hb with hb | ⟨v, hv, ht⟩
    · simp [specSortKey, hb]
    · obtain ⟨t, a, p, d, i, l⟩ := v
      simp only at ht
      subst ht
      simp [specSortKey, hv]
  · intro b hb
    rcases hb with hb | ⟨v, hv, ha⟩
    · simp [specSortKey, hb, hne]
    · obtain ⟨t, a, p, d, i, l⟩ := v
      simp only at ha
      rcases ha with ha | ha <;> subst ha <;> simp [specSortKey, hv, hne]
  · rw [hout]
    exact arraySort_perm _ _
  · intro k
    rw [hout, hcmp]
    apply arraySort_filter
    intro a b ha hb
    have ha' : specSortKey state.sortBy a = k := by simpa using ha
    have hb' : specSortKey state.sortBy b = k := by simpa using hb
    rw [ha', hb']
    exact (htotal k k).elim id id
  · intro k
    rw [hout, hcmp]
    apply arraySort_filter
    intro a b ha hb
    have ha' := of_decide_eq_true ha
    have hb' := of_decide_eq_true hb
    exact htrans _ _ _ ha'.1 hb'.2
  · intro hleast
    have hsplit := pairwise_filter_split
      (fun a b =>
        env.localeCompare (specSortKey state.sortBy a) (specSortKey state.sortBy b) ≤ 0)
      (fun b => decide (env.localeCompare (specSortKey state.sortBy b) [] ≤ 0))
      (getFilteredAndSortedBooks env state books) hsorted
      (fun a b hab hb =>
        decide_eq_true (htrans _ _ _ hab (of_decide_eq_true hb)))
    have hfirst : (getFilteredAndSortedBooks env state books).filter
          (fun b => decide (env.localeCompare (specSortKey state.sortBy b) [] ≤ 0))
        = (books.filter (fun b => decide (specRetained env state.searchQuery b))).filter
          (fun b => decide (env.localeCompare (specSortKey state.sortBy b) [] ≤ 0)) := by
      rw [hout, hcmp]
      apply arraySort_filter
      intro a b ha _
      exact htrans _ _ _ (of_decide_eq_true ha) (hleast _)
    rw [← hfirst]
    exact hsplit

/-- C7: with `sortBy` empty the output of `getFilteredAndSortedBooks` is the list of
the retained records in input order, a sublist of the input; with the query
empty as well it is the input list itself. -/
theorem getFilteredAndSortedBooks_unsorted (env : Env) (state : State) (books : List Book)
    (hsort : state.sortBy = []) :
    getFilteredAndSortedBooks env state books
        = books.filter (fun b => decide (specRetained env state.searchQuery b))
    ∧ (getFilteredAndSortedBooks env state books).Sublist books
    ∧ (state.searchQuery = [] → getFilteredAndSortedBooks env state books = books) := by
  have hout : getFilteredAndSortedBooks env state books
      = books.filter (fun b => decide (specRetained env state.searchQuery b)) := by
    rw [getFilteredAndSortedBooks_eq, hsort]
    rfl
  refine ⟨hout, ?_, ?_⟩
  · rw [hout]
    exact List.filter_sublist _
  · intro hq
    rw [hout, List.filter_eq_self]
    intro b _
    simp [specRetained, hq]

/-- The example of C1 at a concrete input: with the query `tolkien`, of three
records only the one whose authors include "J.R.R. Tolkien" is returned. -/
theorem getFilteredAndSortedBooks_tolkien :
    getFilteredAndSortedBooks asciiEnv { initialState with searchQuery := "tolkien".toList }
        [mkBook (some "Dune") (some ["Frank Herbert"]),
         mkBook (some "The Hobbit") (some ["J.R.R. Tolkien"]),
         { volumeInfo := none }]
      = [mkBook (some "The Hobbit") (some ["J.R.R. Tolkien"])] :=
  (getFilteredAndSortedBooks_mem_iff asciiEnv
      { initialState with searchQuery := "tolkien".toList }
      [mkBook (some "Dune") (some ["Frank Herbert"]),
       mkBook (some "The Hobbit") (some ["J.R.R. Tolkien"]),
       { volumeInfo := none }]).2.2
    [mkBook (some "Dune") (some ["Frank Herbert"])]
    (mkBook (some "The Hobbit") (some ["J.R.R. Tolkien"]))
    [{ volumeInfo := none }] rfl (by decide) (by decide)

/-- The statement of C2 at a concrete input: nine records sorted by title and
by first author under the comparison of code points.  The records without the
key come first, in input order, and the two records titled "Emma" keep their
input order. -/
theorem getFilteredAndSortedBooks_sorted_stable_witness :
    (getFilteredAndSortedBooks asciiEnv { initialState with sortBy := "title".toList }
        ninePage)
      = [mkBook none (some ["Anonymous"]),
         { volumeInfo := none },
         mkBook (some "Beloved") none,
         mkBook (some "Dune") (some ["Frank Herbert"]),
         mkBook (some "Emma") (some ["Jane Austen"]),
         mkBook (some "Emma") (some ["Another Author"]),
         mkBook (some "Ficciones") (some ["Jorge Luis Borges", "A. Kerrigan"]),
         mkBook (some "The Hobbit") (some ["J.R.R. Tolkien"]),
         mkBook (some "Ulysses") (some ["James Joyce"])]
    ∧ (getFilteredAndSortedBooks asciiEnv { initialState with sortBy := "author".toList }
        ninePage)
      = [mkBook (some "Beloved") none,
         { volumeInfo := none },
         mkBook none (some ["Anonymous"]),
         mkBook (some "Emma") (some ["Another Author"]),
         mkBook (some "Dune") (some ["Frank Herbert"]),
         mkBook (some "The Hobbit") (some ["J.R.R. Tolkien"]),
         mkBook (some "Ulysses") (some ["James Joyce"]),
         mkBook (some "Emma") (some ["Jane Austen"]),
         mkBook (some "Ficciones") (some ["Jorge Luis Borges", "A. Kerrigan"])]
    ∧ (getFilteredAndSortedBooks asciiEnv { initialState with sortBy := "author".toList }
        ninePage).Pairwise
        (fun a b => asciiEnv.localeCompare (specSortKey "author".toList a)
          (specSortKey "author".toList b) ≤ 0)
    ∧ (getFilteredAndSortedBooks asciiEnv { initialState with sortBy := "title".toList }
          ninePage).filter (fun b => decide (specSortKey "title".toList b = "Emma".toList))
        = [mkBook (some "Emma") (some ["Jane Austen"]),
           mkBook (some "Emma") (some ["Another Author"])] :=
  ⟨((getFilteredAndSortedBooks_sorted_stable asciiEnv
      { initialState with sortBy := "title".toList } ninePage (Or.inl rfl)
      codePointCompare_total codePointCompare_trans).2.2.2.2.2.2.2.2.2
      codePointCompare_nil).trans (by decide),
   ((getFilteredAndSortedBooks_sorted_stable asciiEnv
      { initialState with sortBy := "author".toList } ninePage (Or.inr rfl)
      codePointCompare_total codePointCompare_trans).2.2.2.2.2.2.2.2.2
      codePointCompare_nil).trans (by decide),
   (getFilteredAndSortedBooks_sorted_stable asciiEnv
      { initialState with sortBy := "author".toList } ninePage (Or.inr rfl)
      codePointCompare_total codePointCompare_trans).2.2.2.2.2.2.1,
   ((getFilteredAndSortedBooks_sorted_stable asciiEnv
      { initialState with sortBy := "title".toList } ninePage (Or.inl rfl)
      codePointCompare_total codePointCompare_trans).2.2.2.2.2.2.2.1 "Emma".toList).trans
      (by decide)⟩

/-- The statement of C7 at a concrete input: with no query and no sort key, nine
records come back as they are. -/
theorem getFilteredAndSortedBooks_unsorted_witness :
    initialState.sortBy = [] ∧ getFilteredAndSortedBooks asciiEnv initialState ninePage = ninePage :=
  ⟨rfl, (getFilteredAndSortedBooks_unsorted asciiEnv initialState ninePage rfl).2.2 rfl⟩

/-! ## Effects of the operations -/

theorem getFilteredAndSortedBooks_nil (env : Env) (state : State) :
    getFilteredAndSortedBooks env state [] = [] := by
  rw [getFilteredAndSortedBooks_eq]
  split <;> rfl

/-- The function `renderBooks` changes the children of the container and nothing else. -/
theorem renderBooks_eq (env : Env) (w : World) (books : List Book) :
    renderBooks env w books
      = { w with dom := { w.dom with
            booksContainer := displayOf w.state (getFilteredAndSortedBooks env w.state books) } } := by
  unfold renderBooks displayOf
  by_cases hb : books = []
  · subst hb
    simp [getFilteredAndSortedBooks_nil, appendExisting, removeChild]
  · have hlen : ¬ books.length = 0 := fun h => hb (List.length_eq_zero.1 h)
    by_cases hd : getFilteredAndSortedBooks env w.state books = []
    · simp [hlen, hd, appendExisting, removeChild]
    · have hdl : ¬ (getFilteredAndSortedBooks env w.state books).length = 0 :=
        fun h => hd (List.length_eq_zero.1 h)
      simp [hlen, hd, hdl, removeChild]

theorem displayOf_noError (state : State) (derived : List Book) :
    (displayOf state derived).any matchesTextRed = false := by
  unfold displayOf
  split
  · rfl
  · simp [List.any_eq_false, matchesTextRed]

/-- The function `setLoadingState` changes `isLoading` and the children of the container. -/
theorem setLoadingState_eq (w : World) (isLoading isInitial : Bool) :
    setLoadingState w isLoading isInitial
      = { w with
          state := { w.state with isLoading := isLoading }
          dom := { w.dom with
            booksContainer :=
              if isLoading then
                if isInitial then List.replicate config.shimmerCount Element.shimmer
                else appendExisting w.dom.booksContainer Element.loader
              else if w.dom.booksContainer.contains Element.loader then
                removeChild w.dom.booksContainer Element.loader
              else w.dom.booksContainer } } := by
  unfold setLoadingState
  cases isLoading <;> cases isInitial <;> simp <;> split <;> simp_all

/-! ## Claims on rendering and on the handlers -/

/-- C8: `renderBooks` replaces the content of the display surface: what it leaves
does not depend on what was shown before; if the derived (filtered and sorted)
list is empty the surface holds the "No books found." placeholder alone;
otherwise it holds one card per record of the derived list, in derived order,
and no placeholder.  The `state` object is not changed. -/
theorem renderBooks_replaces (env : Env) (w : World) (books : List Book) :
    (∀ previous,
        (renderBooks env { w with dom := { w.dom with booksContainer := previous } }
            books).dom.booksContainer
          = (renderBooks env w books).dom.booksContainer)
    ∧ (getFilteredAndSortedBooks env w.state books = [] →
        (renderBooks env w books).dom.booksContainer = [Element.noResult])
    ∧ (getFilteredAndSortedBooks env w.state books ≠ [] →
        (renderBooks env w books).dom.booksContainer
            = (getFilteredAndSortedBooks env w.state books).map
                (fun book => Element.card (createBookCard w.state book))
          ∧ ((renderBooks env w books).dom.booksContainer).length
              = (getFilteredAndSortedBooks env w.state books).length
          ∧ Element.noResult ∉ (renderBooks env w books).dom.booksContainer)
    ∧ (renderBooks env w books).state = w.state := by
  refine ⟨?_, ?_, ?_, ?_⟩
  · intro previous
    simp [renderBooks_eq]
  · intro h
    simp [renderBooks_eq, displayOf, h]
  · intro h
    simp [renderBooks_eq, displayOf, h]
  · simp [renderBooks_eq]

/-- The statement of C8 at a concrete input: nine records rendered over a
surface that showed an error message leave nine cards and nothing else. -/
theorem renderBooks_replaces_witness :
    ((renderBooks asciiEnv
        { state := initialState
          dom := { emptyPage with booksContainer := [Element.errorMessage errorText] }
          requests := [], inflight := [], completed := [], listening := true }
        ninePage).dom.booksContainer)
      = ninePage.map (fun book => Element.card (createBookCard initialState book)) :=
  ((renderBooks_replaces asciiEnv
      { state := initialState
        dom := { emptyPage with booksContainer := [Element.errorMessage errorText] }
        requests := [], inflight := [], completed := [], listening := true }
      ninePage).2.2.1 (by decide)).1

/-- C6: when `isLoading` is true or `hasMoreBooks` is false, `loadMoreBooks` does
nothing: no request is sent and the state, the document and the bookkeeping of
the session are exactly as before; the same holds for `handleScroll`. -/
theorem loadMoreBooks_noop (w : World)
    (h : w.state.isLoading = true ∨ w.state.hasMoreBooks = false) :
    loadMoreBooks w = w
    ∧ (∀ scrollTop scrollHeight clientHeight,
        handleScroll w scrollTop scrollHeight clientHeight = w) := by
  have hguard : (w.state.isLoading || !w.state.hasMoreBooks) = true := by
    rcases h with h | h <;> simp [h]
  constructor
  · unfold loadMoreBooks
    rw [if_pos hguard]
  · intro a b c
    unfold handleScroll
    rw [if_pos hguard]

/-- The statement of C6 at a concrete input: while the first page is being
fetched, `loadMoreBooks` changes nothing. -/
theorem loadMoreBooks_noop_witness :
    (boot emptyPage).state.isLoading = true
    ∧ loadMoreBooks (boot emptyPage) = boot emptyPage :=
  ⟨rfl, (loadMoreBooks_noop (boot emptyPage) (Or.inl rfl)).1⟩

/-- C9: a change of the sort selection to the cleared (empty) value sets both
`searchQuery` and `sortBy` to the empty string and leaves `view`, `books`,
`currentPage`, `hasMoreBooks` and `isLoading` as they were; a change to a
non-empty value sets `sortBy` to that value and leaves `searchQuery` and every
other field as they were.  Neither sends a request. -/
theorem onFilterChange_frame (env : Env) (w : World) (value : Str) :
    (value = [] →
        (onFilterChange env w value).state = { w.state with searchQuery := [], sortBy := [] })
    ∧ (value ≠ [] →
        (onFilterChange env w value).state = { w.state with sortBy := value })
    ∧ (onFilterChange env w value).state.view = w.state.view
    ∧ (onFilterChange env w value).state.books = w.state.books
    ∧ (onFilterChange env w value).state.currentPage = w.state.currentPage
    ∧ (onFilterChange env w value).state.hasMoreBooks = w.state.hasMoreBooks
    ∧ (onFilterChange env w value).state.isLoading = w.state.isLoading
    ∧ (onFilterChange env w value).requests = w.requests := by
  have hreset : (resetFilters env w).state = { w.state with searchQuery := [], sortBy := [] } := by
    simp [resetFilters, renderBooks_eq]
  have hsort : (handleSort env w value).state = { w.state with sortBy := value } := by
    simp [handleSort, filterAndSortBooks, renderBooks_eq]
  have hreq : (onFilterChange env w value).requests = w.requests := by
    simp only [onFilterChange]
    split <;> simp [resetFilters, handleSort, filterAndSortBooks, renderBooks_eq]
  by_cases hv : value = []
  · have hcall : onFilterChange env w value = resetFilters env w := by
      simp [onFilterChange, hv, truthy]
    refine ⟨fun _ => by rw [hcall, hreset], fun h => absurd hv h, ?_, ?_, ?_, ?_, ?_, hreq⟩ <;>
      rw [hcall, hreset]
  · have hcall : onFilterChange env w value = handleSort env w value := by
      have : truthy value = true := (truthy_iff value).2 hv
      simp [onFilterChange, this]
    refine ⟨fun h => absurd h hv, fun _ => by rw [hcall, hsort], ?_, ?_, ?_, ?_, ?_, hreq⟩ <;>
      rw [hcall, hsort]

/-! ## The session invariant -/

theorem viewStep_handleSearch (env : Env) (w : World) (d : Dom) (value : Str) :
    ViewStep w (handleSearch env { w with dom := d } value) := by
  simp [ViewStep, handleSearch, filterAndSortBooks, renderBooks_eq, displayOf_noError]

theorem viewStep_onFilterChange (env : Env) (w : World) (d : Dom) (value : Str) :
    ViewStep w (onFilterChange env { w with dom := d } value) := by
  simp only [onFilterChange]
  split <;>
    simp [ViewStep, resetFilters, handleSort, filterAndSortBooks, renderBooks_eq,
      displayOf_noError]

theorem viewStep_toggleView (env : Env) (w : World) : ViewStep w (toggleView env w) := by
  simp [ViewStep, toggleView, renderBooks_eq, displayOf_noError]

theorem inv_viewStep {w w' : World} (h : Inv w) (hv : ViewStep w w') : Inv w' := by
  obtain ⟨h1, h2, h3, h4, h5, h6, h7, h8⟩ := hv
  constructor
  · rw [h1, h5]; exact h.current
  · rw [h5]; exact h.pages
  · rw [h7]; exact h.answered
  · rw [h2, h7]; exact h.books
  · rw [h3, h4, h5, h6, h7]; exact h.flight
  · intro _; exact h8

theorem appendExisting_noError (c : List Element) (node : Element)
    (hc : c.any matchesTextRed = false) (hn : matchesTextRed node = false) :
    (appendExisting c node).any matchesTextRed = false := by
  rw [List.any_eq_false] at hc ⊢
  intro x hx
  unfold appendExisting at hx
  rcases List.mem_append.1 hx with hx | hx
  · exact hc x (List.mem_filter.1 hx).1
  · rw [List.mem_singleton.1 hx]
    simp [hn]

theorem removeChild_noError (c : List Element) (node : Element)
    (hc : c.any matchesTextRed = false) :
    (removeChild c node).any matchesTextRed = false := by
  rw [List.any_eq_false] at hc ⊢
  intro x hx
  exact hc x (List.mem_of_mem_erase hx)

theorem replicate_shimmer_noError (n : Nat) :
    (List.replicate n Element.shimmer).any matchesTextRed = false := by
  rw [List.any_eq_false]
  intro x hx
  rw [List.eq_of_mem_replicate hx]
  simp [matchesTextRed]

theorem setLoadingState_noError (w : World) (isLoading isInitial : Bool)
    (hc : w.dom.booksContainer.any matchesTextRed = false) :
    (setLoadingState w isLoading isInitial).dom.booksContainer.any matchesTextRed = false := by
  rw [setLoadingState_eq]
  simp only
  split
  · split
    · exact replicate_shimmer_noError _
    · exact appendExisting_noError _ _ hc rfl
  · split
    · exact removeChild_noError _ _ hc
    · exact hc

theorem inv_boot (page : Dom) : Inv (boot page) := by
  constructor
  · rfl
  · rfl
  · rfl
  · rfl
  · right
    exact ⟨Caller.initializeApp, rfl, rfl, rfl, rfl, fun _ => rfl⟩
  · intro _
    exact replicate_shimmer_noError _

theorem fetchBooksStart_state (w : World) (caller : Caller) :
    (fetchBooksStart w caller).state = { w.state with isLoading := true } := by
  simp [fetchBooksStart, setLoadingState_eq]

theorem fetchBooksStart_requests (w : World) (caller : Caller) :
    (fetchBooksStart w caller).requests
      = w.requests ++ [{ limit := config.perPage, page := w.state.currentPage }] := by
  simp [fetchBooksStart, setLoadingState_eq]

theorem fetchBooksStart_inflight (w : World) (caller : Caller) :
    (fetchBooksStart w caller).inflight
      = w.inflight ++ [{ caller := caller
                         request := { limit := config.perPage, page := w.state.currentPage } }] := by
  simp [fetchBooksStart, setLoadingState_eq]

theorem fetchBooksStart_completed (w : World) (caller : Caller) :
    (fetchBooksStart w caller).completed = w.completed := by
  simp [fetchBooksStart, setLoadingState_eq]

theorem fetchBooksStart_noError (w : World) (caller : Caller)
    (hc : w.dom.booksContainer.any matchesTextRed = false) :
    (fetchBooksStart w caller).dom.booksContainer.any matchesTextRed = false := by
  have := setLoadingState_noError w true (w.state.currentPage == config.initialPage) hc
  simpa [fetchBooksStart] using this

theorem loadMoreBooks_of_guard (w : World) (hl : w.state.isLoading = false)
    (hm : w.state.hasMoreBooks = true) :
    loadMoreBooks w
      = fetchBooksStart
          { w with state := { w.state with currentPage := w.state.currentPage + 1 } }
          Caller.loadMoreBooks := by
  simp [loadMoreBooks, hl, hm]

theorem inv_loadMoreBooks {w : World} (h : Inv w) : Inv (loadMoreBooks w) := by
  by_cases hguard : w.state.isLoading = true ∨ w.state.hasMoreBooks = false
  · have : loadMoreBooks w = w := by
      have hg : (w.state.isLoading || !w.state.hasMoreBooks) = true := by
        rcases hguard with h | h <;> simp [h]
      unfold loadMoreBooks
      rw [if_pos hg]
    rw [this]
    exact h
  · have hl : w.state.isLoading = false := by
      cases hx : w.state.isLoading
      · rfl
      · exact absurd (Or.inl hx) hguard
    have hm : w.state.hasMoreBooks = true := by
      cases hx : w.state.hasMoreBooks
      · exact absurd (Or.inr hx) hguard
      · rfl
    rw [loadMoreBooks_of_guard w hl hm]
    have hidle : w.inflight = [] ∧ w.completed.length = w.requests.length := by
      rcases h.flight with ⟨h1, _, h3⟩ | ⟨_, _, h2, _⟩
      · exact ⟨h1, h3⟩
      · rw [hl] at h2
        exact absurd h2 (by decide)
    have hcur := h.current
    constructor
    · rw [fetchBooksStart_state, fetchBooksStart_requests]
      simp [hcur]
    · rw [fetchBooksStart_requests]
      simp only [List.map_append, List.map_cons, List.map_nil, List.length_append,
        List.length_singleton, h.pages, List.range'_concat]
      simp [hcur]
      omega
    · rw [fetchBooksStart_completed]
      exact h.answered
    · rw [fetchBooksStart_state, fetchBooksStart_completed]
      exact h.books
    · right
      refine ⟨Caller.loadMoreBooks, ?_, ?_, ?_, ?_, ?_⟩
      · rw [fetchBooksStart_inflight, fetchBooksStart_requests]
        simp [hidle.1, hcur]
      · rw [fetchBooksStart_state]
      · rw [fetchBooksStart_state]
        exact hm
      · rw [fetchBooksStart_completed, fetchBooksStart_requests]
        simp [hidle.2]
      · intro hc
        exact absurd hc (by decide)
    · intro _
      exact fetchBooksStart_noError _ _ (h.noError hm)

theorem inv_handleScroll {w : World} (h : Inv w) (a b c : Int) :
    Inv (handleScroll w a b c) := by
  unfold handleScroll
  split
  · exact h
  · split
    · exact inv_loadMoreBooks h
    · exact h

theorem fetchBooksFinish_snd (w : World) (r : FetchResult) :
    (fetchBooksFinish w r).2 = returnedBooks r := by
  cases r <;> rfl

theorem fetchBooksFinish_state (w : World) (r : FetchResult) :
    (fetchBooksFinish w r).1.state
      = { w.state with
          hasMoreBooks :=
            w.state.hasMoreBooks && succeeded r
              && !decide ((returnedBooks r).length < config.perPage)
          isLoading := false } := by
  cases r <;> simp only [fetchBooksFinish, showError, setLoadingState_eq, succeeded, returnedBooks]
  all_goals split <;> simp_all

theorem fetchBooksFinish_requests (w : World) (r : FetchResult) :
    (fetchBooksFinish w r).1.requests = w.requests := by
  cases r <;> simp only [fetchBooksFinish, showError, setLoadingState_eq]
  all_goals split <;> rfl

theorem fetchBooksFinish_inflight (w : World) (r : FetchResult) :
    (fetchBooksFinish w r).1.inflight = w.inflight := by
  cases r <;> simp only [fetchBooksFinish, showError, setLoadingState_eq]
  all_goals split <;> rfl

theorem fetchBooksFinish_completed (w : World) (r : FetchResult) :
    (fetchBooksFinish w r).1.completed = w.completed := by
  cases r <;> simp only [fetchBooksFinish, showError, setLoadingState_eq]
  all_goals split <;> rfl

theorem fetchBooksFinish_noError (w : World) (data : Option (List Book))
    (hc : w.dom.booksContainer.any matchesTextRed = false) :
    (fetchBooksFinish w (FetchResult.ok data)).1.dom.booksContainer.any matchesTextRed
      = false := by
  simp only [fetchBooksFinish]
  apply setLoadingState_noError
  split <;> exact hc

theorem deliver_of_none (env : Env) (w : World) (i : Nat) (r : FetchResult)
    (hp : w.inflight[i]? = none) : deliver env w i r = w := by
  unfold deliver
  rw [hp]

theorem deliver_of_pending (env : Env) (w : World) (i : Nat) (r : FetchResult)
    (pending : Pending) (hp : w.inflight[i]? = some pending) :
    deliver env w i r
      = match pending.caller with
        | Caller.initializeApp =>
          initializeAppFinish env
            (fetchBooksFinish
              { w with
                inflight := w.inflight.eraseIdx i
                completed := w.completed ++ [(pending.request, r)] } r).1
            (returnedBooks r)
        | Caller.loadMoreBooks =>
          loadMoreBooksFinish env
            (fetchBooksFinish
              { w with
                inflight := w.inflight.eraseIdx i
                completed := w.completed ++ [(pending.request, r)] } r).1
            (returnedBooks r) := by
  unfold deliver
  rw [hp]
  simp only [← fetchBooksFinish_snd { w with
    inflight := w.inflight.eraseIdx i
    completed := w.completed ++ [(pending.request, r)] } r]

theorem initializeAppFinish_eq (env : Env) (w : World) (books : List Book) :
    initializeAppFinish env w books
      = { w with
          state := { w.state with books := books }
          dom := { w.dom with
            booksContainer :=
              displayOf { w.state with books := books }
                (getFilteredAndSortedBooks env { w.state with books := books } books) }
          listening := true } := by
  simp [initializeAppFinish, renderBooks_eq]

theorem loadMoreBooksFinish_state (env : Env) (w : World) (newBooks : List Book) :
    (loadMoreBooksFinish env w newBooks).state
      = { w.state with books := w.state.books ++ newBooks } := by
  unfold loadMoreBooksFinish
  split
  · simp [renderBooks_eq]
  · rename_i h
    have : newBooks = [] := by
      cases newBooks with
      | nil => rfl
      | cons a l => simp at h
    simp [this]

theorem loadMoreBooksFinish_requests (env : Env) (w : World) (newBooks : List Book) :
    (loadMoreBooksFinish env w newBooks).requests = w.requests := by
  unfold loadMoreBooksFinish
  split <;> simp [renderBooks_eq]

theorem loadMoreBooksFinish_inflight (env : Env) (w : World) (newBooks : List Book) :
    (loadMoreBooksFinish env w newBooks).inflight = w.inflight := by
  unfold loadMoreBooksFinish
  split <;> simp [renderBooks_eq]

theorem loadMoreBooksFinish_completed (env : Env) (w : World) (newBooks : List Book) :
    (loadMoreBooksFinish env w newBooks).completed = w.completed := by
  unfold loadMoreBooksFinish
  split <;> simp [renderBooks_eq]

theorem loadMoreBooksFinish_noError (env : Env) (w : World) (newBooks : List Book)
    (hc : w.dom.booksContainer.any matchesTextRed = false) :
    (loadMoreBooksFinish env w newBooks).dom.booksContainer.any matchesTextRed = false := by
  unfold loadMoreBooksFinish
  split
  · simp [renderBooks_eq, displayOf_noError]
  · exact hc

theorem inv_deliver (env : Env) {w : World} (h : Inv w) (i : Nat) (r : FetchResult) :
    Inv (deliver env w i r) := by
  rcases h.flight with ⟨h1, _, _⟩ | ⟨caller, h1, _, h3, h4, h5⟩
  · rw [deliver_of_none env w i r (by rw [h1]; rfl)]
    exact h
  · cases i with
    | succ j =>
      rw [deliver_of_none env w _ r (by rw [h1]; rfl)]
      exact h
    | zero =>
      have hp : w.inflight[0]?
          = some { caller := caller
                   request := { limit := config.perPage, page := w.requests.length } } := by
        rw [h1]; rfl
      rw [deliver_of_pending env w 0 r _ hp]
      have herase : w.inflight.eraseIdx 0 = [] := by rw [h1]; rfl
      have hans : (w.completed
            ++ [(({ limit := config.perPage, page := w.requests.length } : Request), r)]).map
              (fun c => c.1.page)
          = List.range' 1
              (w.completed
                ++ [(({ limit := config.perPage, page := w.requests.length } : Request),
                      r)]).length := by
        simp only [List.map_append, List.map_cons, List.map_nil, List.length_append,
          List.length_singleton, h.answered, List.range'_concat]
        simp
        omega
      cases caller with
      | initializeApp =>
        simp only
        rw [initializeAppFinish_eq]
        have hc := h5 rfl
        constructor
        · simp only [fetchBooksFinish_state, fetchBooksFinish_requests]
          exact h.current
        · simp only [fetchBooksFinish_requests]
          exact h.pages
        · simp only [fetchBooksFinish_completed]
          exact hans
        · simp only [fetchBooksFinish_completed]
          simp [hc]
        · left
          simp only [fetchBooksFinish_state, fetchBooksFinish_requests,
            fetchBooksFinish_inflight, fetchBooksFinish_completed]
          refine ⟨herase, trivial, ?_⟩
          simp
          omega
        · intro _
          exact displayOf_noError _ _
      | loadMoreBooks =>
        simp only
        constructor
        · simp only [loadMoreBooksFinish_state, loadMoreBooksFinish_requests,
            fetchBooksFinish_state, fetchBooksFinish_requests]
          exact h.current
        · simp only [loadMoreBooksFinish_requests, fetchBooksFinish_requests]
          exact h.pages
        · simp only [loadMoreBooksFinish_completed, fetchBooksFinish_completed]
          exact hans
        · simp only [loadMoreBooksFinish_state, loadMoreBooksFinish_completed,
            fetchBooksFinish_state, fetchBooksFinish_completed]
          simp [h.books]
        · left
          simp only [loadMoreBooksFinish_state, loadMoreBooksFinish_requests,
            loadMoreBooksFinish_inflight, loadMoreBooksFinish_completed,
            fetchBooksFinish_state, fetchBooksFinish_requests,
            fetchBooksFinish_inflight, fetchBooksFinish_completed]
          refine ⟨herase, trivial, ?_⟩
          simp
          omega
        · intro hmore
          simp only [loadMoreBooksFinish_state, fetchBooksFinish_state] at hmore
          apply loadMoreBooksFinish_noError
          cases r with
          | ok data => exact fetchBooksFinish_noError _ data (h.noError h3)
          | networkError => simp [succeeded] at hmore
          | httpError status => simp [succeeded] at hmore
          | invalidJson => simp [succeeded] at hmore

theorem inv_step (env : Env) {w : World} (h : Inv w) (ev : Event) : Inv (step env w ev) := by
  cases ev with
  | input value =>
    simp only [step]
    split
    · exact inv_viewStep h (viewStep_handleSearch env w _ value)
    · exact h
  | change value =>
    simp only [step]
    split
    · exact inv_viewStep h (viewStep_onFilterChange env w _ value)
    · exact h
  | click =>
    simp only [step]
    split
    · exact inv_viewStep h (viewStep_toggleView env w)
    · exact h
  | scroll a b c =>
    simp only [step]
    split
    · exact inv_handleScroll h a b c
    · exact h
  | response i r => exact inv_deliver env h i r

theorem inv_of_reachable (env : Env) {w : World} (h : Reachable env w) : Inv w := by
  induction h with
  | boot page => exact inv_boot page
  | step ev _ ih => exact inv_step env ih ev

theorem reachable_run (env : Env) {w : World} (h : Reachable env w) (events : List Event) :
    Reachable env (run env w events) := by
  induction events generalizing w with
  | nil => exact h
  | cons ev events ih => exact ih (Reachable.step ev h)

theorem flatten_returnedBooks_filter (l : List (Request × FetchResult)) :
    ((l.filter (fun c => succeeded c.2)).map (fun c => returnedBooks c.2)).flatten
      = (l.map (fun c => returnedBooks c.2)).flatten := by
  induction l with
  | nil => rfl
  | cons c l ih =>
    obtain ⟨q, r⟩ := c
    by_cases hr : succeeded r = true
    · rw [List.filter_cons_of_pos (by simpa using hr)]
      simp only [List.map_cons, List.flatten_cons, ih]
    · have hnil : returnedBooks r = [] := by
        cases r <;> first | rfl | exact absurd rfl hr
      rw [List.filter_cons_of_neg (by simpa using hr)]
      simp only [List.map_cons, List.flatten_cons, ih, hnil, List.nil_append]

theorem deliver_currentPage (env : Env) (w : World) (i : Nat) (r : FetchResult) :
    (deliver env w i r).state.currentPage = w.state.currentPage := by
  cases hp : w.inflight[i]? with
  | none => rw [deliver_of_none env w i r hp]
  | some pending =>
    rw [deliver_of_pending env w i r pending hp]
    cases pending.caller <;>
      simp [initializeAppFinish_eq, loadMoreBooksFinish_state, fetchBooksFinish_state]

theorem deliver_requests (env : Env) (w : World) (i : Nat) (r : FetchResult) :
    (deliver env w i r).requests = w.requests := by
  cases hp : w.inflight[i]? with
  | none => rw [deliver_of_none env w i r hp]
  | some pending =>
    rw [deliver_of_pending env w i r pending hp]
    cases pending.caller <;>
      simp [initializeAppFinish_eq, loadMoreBooksFinish_requests, fetchBooksFinish_requests]

theorem deliver_hasMoreBooks (env : Env) (w : World) (i : Nat) (r : FetchResult)
    (pending : Pending) (hp : w.inflight[i]? = some pending) :
    (deliver env w i r).state.hasMoreBooks
      = (w.state.hasMoreBooks && succeeded r
          && !decide ((returnedBooks r).length < config.perPage)) := by
  rw [deliver_of_pending env w i r pending hp]
  cases pending.caller <;>
    simp [initializeAppFinish_eq, loadMoreBooksFinish_state, fetchBooksFinish_state]

theorem deliver_hasMoreBooks_false (env : Env) (w : World) (i : Nat) (r : FetchResult)
    (h : w.state.hasMoreBooks = false) : (deliver env w i r).state.hasMoreBooks = false := by
  cases hp : w.inflight[i]? with
  | none => rw [deliver_of_none env w i r hp]; exact h
  | some pending => rw [deliver_hasMoreBooks env w i r pending hp, h]; rfl

theorem loadMoreBooks_hasMoreBooks (w : World) :
    (loadMoreBooks w).state.hasMoreBooks = w.state.hasMoreBooks := by
  unfold loadMoreBooks
  split
  · rfl
  · rw [fetchBooksStart_state]

theorem handleScroll_hasMoreBooks (w : World) (a b c : Int) :
    (handleScroll w a b c).state.hasMoreBooks = w.state.hasMoreBooks := by
  unfold handleScroll
  split
  · rfl
  · split
    · exact loadMoreBooks_hasMoreBooks w
    · rfl

theorem handleScroll_of_done (w : World) (a b c : Int) (h : w.state.hasMoreBooks = false) :
    handleScroll w a b c = w := by
  unfold handleScroll
  rw [if_pos (by simp [h])]

theorem step_of_done (env : Env) (w : World) (ev : Event) (h : w.state.hasMoreBooks = false) :
    (step env w ev).state.hasMoreBooks = false ∧ (step env w ev).requests = w.requests := by
  cases ev with
  | input value =>
    simp only [step]
    split
    · have hv := viewStep_handleSearch env w { w.dom with searchInputValue := value } value
      exact ⟨hv.2.2.1.trans h, hv.2.2.2.2.1⟩
    · exact ⟨h, rfl⟩
  | change value =>
    simp only [step]
    split
    · have hv := viewStep_onFilterChange env w { w.dom with filterSelectValue := value } value
      exact ⟨hv.2.2.1.trans h, hv.2.2.2.2.1⟩
    · exact ⟨h, rfl⟩
  | click =>
    simp only [step]
    split
    · have hv := viewStep_toggleView env w
      exact ⟨hv.2.2.1.trans h, hv.2.2.2.2.1⟩
    · exact ⟨h, rfl⟩
  | scroll a b c =>
    simp only [step]
    split
    · rw [handleScroll_of_done w a b c h]
      exact ⟨h, rfl⟩
    · exact ⟨h, rfl⟩
  | response i r =>
    exact ⟨deliver_hasMoreBooks_false env w i r h, deliver_requests env w i r⟩

theorem run_of_done (env : Env) (w : World) (events : List Event)
    (h : w.state.hasMoreBooks = false) :
    (run env w events).state.hasMoreBooks = false ∧ (run env w events).requests = w.requests := by
  induction events generalizing w with
  | nil => exact ⟨h, rfl⟩
  | cons ev events ih =>
    have hs := step_of_done env w ev h
    have := ih (step env w ev) hs.1
    exact ⟨this.1, this.2.trans hs.2⟩

/-! ## Claims on the pagination state -/

/-- C3, the claim as written, fails: after the first page has been fetched
successfully with nine records no fetch is in flight, `hasMoreBooks` is true and
nine records are accumulated, but `currentPage` is 1, not 2, and so it is not 1
plus the number of successful fetches; and a load-more whose fetch then fails
leaves `currentPage` at 2 with a single successful fetch. -/
theorem currentPage_after_first_page :
    (run asciiEnv (boot emptyPage)
        [Event.response 0 (FetchResult.ok (some ninePage))]).inflight = []
    ∧ (run asciiEnv (boot emptyPage)
        [Event.response 0 (FetchResult.ok (some ninePage))]).state.hasMoreBooks = true
    ∧ (run asciiEnv (boot emptyPage)
        [Event.response 0 (FetchResult.ok (some ninePage))]).state.books.length = 9
    ∧ (run asciiEnv (boot emptyPage)
        [Event.response 0 (FetchResult.ok (some ninePage))]).state.currentPage = 1
    ∧ ((run asciiEnv (boot emptyPage)
        [Event.response 0 (FetchResult.ok (some ninePage))]).completed.filter
          (fun c => succeeded c.2)).length = 1
    ∧ ¬ ((run asciiEnv (boot emptyPage)
          [Event.response 0 (FetchResult.ok (some ninePage))]).state.currentPage
        = 1 + ((run asciiEnv (boot emptyPage)
          [Event.response 0 (FetchResult.ok (some ninePage))]).completed.filter
            (fun c => succeeded c.2)).length)
    ∧ (run asciiEnv (boot emptyPage)
        [Event.response 0 (FetchResult.ok (some ninePage)), Event.scroll 0 0 0,
         Event.response 0 FetchResult.networkError]).state.currentPage = 2
    ∧ ((run asciiEnv (boot emptyPage)
        [Event.response 0 (FetchResult.ok (some ninePage)), Event.scroll 0 0 0,
         Event.response 0 FetchResult.networkError]).completed.filter
          (fun c => succeeded c.2)).length = 1 := by
  refine ⟨?_, ?_, ?_, ?_, ?_, ?_, ?_, ?_⟩ <;> decide


/-- C3, amended: `currentPage` starts at 1; the initial load fetches page 1 without
changing it; a call of `loadMoreBooks` that passes its guard adds exactly 1 to
it before the request is sent, and a call that does not pass leaves it alone;
the arrival of a response, successful or failed, never changes it.  So in every
reachable state `currentPage` is the number of requests sent so far.  After the
first page has arrived with nine records, `hasMoreBooks` is true, `currentPage`
is 1 and nine records are accumulated. -/
theorem currentPage_counts_requests (env : Env) (w : World) (h : Reachable env w) :
    w.state.currentPage = w.requests.length
    ∧ (∀ i r, (step env w (Event.response i r)).state.currentPage = w.state.currentPage)
    ∧ (∀ ev, (step env w ev).state.currentPage
          = w.state.currentPage + ((step env w ev).requests.length - w.requests.length))
    ∧ (loadMoreBooks w).state.currentPage
        = (if w.state.isLoading || !w.state.hasMoreBooks then w.state.currentPage
           else w.state.currentPage + 1)
    ∧ (loadMoreBooks w).requests.length
        = (if w.state.isLoading || !w.state.hasMoreBooks then w.requests.length
           else w.requests.length + 1)
    ∧ (∀ page, (loaded page).state.currentPage = 1 ∧ (boot page).state.currentPage = 1)
    ∧ (∀ page data, data.length = 9 →
        (step env (boot page) (Event.response 0 (FetchResult.ok (some data)))).state.hasMoreBooks
            = true
          ∧ (step env (boot page)
              (Event.response 0 (FetchResult.ok (some data)))).state.currentPage = 1
          ∧ (step env (boot page)
              (Event.response 0 (FetchResult.ok (some data)))).state.books.length = 9) := by
  have hinv := inv_of_reachable env h
  refine ⟨hinv.current, ?_, ?_, ?_, ?_, ?_, ?_⟩
  · intro i r
    exact deliver_currentPage env w i r
  · intro ev
    have h1 := (inv_step env hinv ev).current
    rw [h1, hinv.current]
    have hle : w.requests.length ≤ (step env w ev).requests.length := by
      rw [← h1, ← hinv.current]
      cases ev with
      | input value =>
        simp only [step]
        split
        · exact le_of_eq (viewStep_handleSearch env w _ value).1.symm
        · exact le_refl _
      | change value =>
        simp only [step]
        split
        · exact le_of_eq (viewStep_onFilterChange env w _ value).1.symm
        · exact le_refl _
      | click =>
        simp only [step]
        split
        · exact le_of_eq (viewStep_toggleView env w).1.symm
        · exact le_refl _
      | scroll a b c =>
        simp only [step, handleScroll, loadMoreBooks]
        split_ifs <;> simp [fetchBooksStart_state]
      | response i r => exact le_of_eq (deliver_currentPage env w i r).symm
    omega
  · unfold loadMoreBooks
    split
    · rfl
    · rw [fetchBooksStart_state]
  · unfold loadMoreBooks
    split
    · rfl
    · rw [fetchBooksStart_requests]
      simp
  · intro page
    exact ⟨rfl, rfl⟩
  · intro page data hdata
    have hp : (boot page).inflight[0]?
        = some { caller := Caller.initializeApp
                 request := { limit := config.perPage, page := 1 } } := rfl
    refine ⟨?_, ?_, ?_⟩
    · simp only [step]
      rw [deliver_hasMoreBooks env _ 0 _ _ hp]
      simp [succeeded, returnedBooks, hdata, config]
      rfl
    · simp only [step]
      rw [deliver_currentPage]
      rfl
    · simp only [step]
      rw [deliver_of_pending env _ 0 _ _ hp]
      simp [initializeAppFinish_eq, returnedBooks, hdata]

/-- The statement of C3 as amended at a concrete input: after two pages of nine
records have arrived, two requests have been sent and `currentPage` is 2. -/
theorem currentPage_counts_requests_witness :
    (run asciiEnv (boot emptyPage)
        [Event.response 0 (FetchResult.ok (some ninePage)), Event.scroll 0 0 0,
         Event.response 0 (FetchResult.ok (some ninePage))]).state.currentPage
      = (run asciiEnv (boot emptyPage)
        [Event.response 0 (FetchResult.ok (some ninePage)), Event.scroll 0 0 0,
         Event.response 0 (FetchResult.ok (some ninePage))]).requests.length :=
  (currentPage_counts_requests asciiEnv _
    (reachable_run asciiEnv (Reachable.boot emptyPage)
      [Event.response 0 (FetchResult.ok (some ninePage)), Event.scroll 0 0 0,
       Event.response 0 (FetchResult.ok (some ninePage))])).1


/-- C4 at the failing input: when the fetch of the initial load fails, `showError`
appends the message, but `initializeApp` then renders the empty array it got
back, so the surface ends with the "No books found." placeholder alone and no
error message; `hasMoreBooks` and `isLoading` are false and `books` is empty. -/
theorem initial_load_failure_hides_error (env : Env) (page : Dom) (r : FetchResult)
    (hr : succeeded r = false) :
    (step env (boot page) (Event.response 0 r)).dom.booksContainer = [Element.noResult]
    ∧ errorMessageCount (step env (boot page) (Event.response 0 r)).dom.booksContainer = 0
    ∧ (step env (boot page) (Event.response 0 r)).state.hasMoreBooks = false
    ∧ (step env (boot page) (Event.response 0 r)).state.isLoading = false
    ∧ (step env (boot page) (Event.response 0 r)).state.books = (boot page).state.books := by
  have hp : (boot page).inflight[0]?
      = some { caller := Caller.initializeApp
               request := { limit := config.perPage, page := 1 } } := rfl
  have hnil : returnedBooks r = [] := by
    cases r <;> first | rfl | exact absurd hr (by simp [succeeded])
  have hc : (step env (boot page) (Event.response 0 r)).dom.booksContainer
      = [Element.noResult] := by
    simp only [step]
    rw [deliver_of_pending env _ 0 _ _ hp]
    simp [initializeAppFinish_eq, hnil, getFilteredAndSortedBooks_nil, displayOf]
  refine ⟨hc, ?_, ?_, ?_, ?_⟩
  · rw [hc]
    decide
  · simp only [step]
    rw [deliver_hasMoreBooks env _ 0 _ _ hp, hr]
    simp
  · simp only [step]
    rw [deliver_of_pending env _ 0 _ _ hp]
    simp [initializeAppFinish_eq, fetchBooksFinish_state]
  · simp only [step]
    rw [deliver_of_pending env _ 0 _ _ hp]
    simp [initializeAppFinish_eq, hnil]
    rfl

/-- The statement about C4 at a concrete input: a network failure of the
initial load. -/
theorem initial_load_failure_hides_error_witness :
    succeeded FetchResult.networkError = false
    ∧ (step asciiEnv (boot emptyPage)
        (Event.response 0 FetchResult.networkError)).dom.booksContainer
        = [Element.noResult] :=
  ⟨rfl, (initial_load_failure_hides_error asciiEnv emptyPage FetchResult.networkError rfl).1⟩

/-- The path of `loadMoreBooks` does what C4 says: when the fetch of a load-more
fails in a reachable state, `hasMoreBooks` and `isLoading` are false afterwards,
`books` is unchanged and the surface shows exactly one error message. -/
theorem loadMore_failure_shows_error (env : Env) (w : World) (h : Reachable env w)
    (pending : Pending) (hp : w.inflight[0]? = some pending)
    (hcaller : pending.caller = Caller.loadMoreBooks) (r : FetchResult)
    (hr : succeeded r = false) :
    (step env w (Event.response 0 r)).state.hasMoreBooks = false
    ∧ (step env w (Event.response 0 r)).state.isLoading = false
    ∧ (step env w (Event.response 0 r)).state.books = w.state.books
    ∧ errorMessageCount (step env w (Event.response 0 r)).dom.booksContainer = 1 := by
  have hinv := inv_of_reachable env h
  have hnil : returnedBooks r = [] := by
    cases r <;> first | rfl | exact absurd hr (by simp [succeeded])
  have hmore : w.state.hasMoreBooks = true := by
    rcases hinv.flight with ⟨h1, _, _⟩ | ⟨_, _, _, h3, _, _⟩
    · rw [h1] at hp
      exact absurd hp (by simp)
    · exact h3
  have hclean := hinv.noError hmore
  have hcount : w.dom.booksContainer.count (Element.errorMessage errorText) = 0 := by
    rw [List.count_eq_zero]
    intro hmem
    rw [List.any_eq_false] at hclean
    exact hclean _ hmem rfl
  simp only [step]
  refine ⟨?_, ?_, ?_, ?_⟩
  · rw [deliver_hasMoreBooks env _ 0 _ _ hp, hr]
    simp
  · rw [deliver_of_pending env _ 0 _ _ hp, hcaller]
    simp [loadMoreBooksFinish_state, fetchBooksFinish_state]
  · rw [deliver_of_pending env _ 0 _ _ hp, hcaller]
    simp [loadMoreBooksFinish_state, fetchBooksFinish_state, hnil]
  · rw [deliver_of_pending env _ 0 _ _ hp, hcaller]
    simp only [hnil, loadMoreBooksFinish, List.length_nil, gt_iff_lt, lt_self_iff_false,
      if_false]
    have hshow : ∀ r, succeeded r = false →
        (fetchBooksFinish
          { w with
            inflight := w.inflight.eraseIdx 0
            completed := w.completed ++ [(pending.request, r)] } r).1.dom.booksContainer
          = (if (w.dom.booksContainer ++ [Element.errorMessage errorText]).contains
                Element.loader then
              removeChild (w.dom.booksContainer ++ [Element.errorMessage errorText])
                Element.loader
            else w.dom.booksContainer ++ [Element.errorMessage errorText]) := by
      intro r hr
      cases r with
      | ok data => exact absurd hr (by simp [succeeded])
      | networkError => simp [fetchBooksFinish, showError, setLoadingState_eq, hclean]
      | httpError status => simp [fetchBooksFinish, showError, setLoadingState_eq, hclean]
      | invalidJson => simp [fetchBooksFinish, showError, setLoadingState_eq, hclean]
    rw [hshow r hr]
    unfold errorMessageCount
    have hne : Element.errorMessage errorText ≠ Element.loader := by decide
    split
    · rw [removeChild, List.count_erase_of_ne hne]
      simp [hcount]
    · simp [hcount]


/-- C5: once `hasMoreBooks` is false it stays false: no step of the session and none
of the operations (start of the initial load, `loadMoreBooks`, `handleScroll`,
`handleSearch`, `handleSort`, `resetFilters`, `toggleView`, arrival of a
response) turns it from false to true; it becomes false when a fetch returns
fewer than `perPage` (9) records; and from then on, whatever happens, no request
is sent and `loadMoreBooks` does nothing. -/
theorem hasMoreBooks_stays_false (env : Env) (w : World) :
    (∀ ev, w.state.hasMoreBooks = false →
        (step env w ev).state.hasMoreBooks = false ∧ (step env w ev).requests = w.requests)
    ∧ (∀ events, w.state.hasMoreBooks = false →
        (run env w events).state.hasMoreBooks = false
          ∧ (run env w events).requests = w.requests
          ∧ loadMoreBooks (run env w events) = run env w events)
    ∧ (∀ i pending data, w.inflight[i]? = some pending →
        (data.getD []).length < config.perPage →
        (step env w (Event.response i (FetchResult.ok data))).state.hasMoreBooks = false)
    ∧ (initializeAppStart w).state.hasMoreBooks = w.state.hasMoreBooks
    ∧ (loadMoreBooks w).state.hasMoreBooks = w.state.hasMoreBooks
    ∧ (∀ a b c, (handleScroll w a b c).state.hasMoreBooks = w.state.hasMoreBooks)
    ∧ (∀ value, (handleSearch env w value).state.hasMoreBooks = w.state.hasMoreBooks)
    ∧ (∀ value, (handleSort env w value).state.hasMoreBooks = w.state.hasMoreBooks)
    ∧ (resetFilters env w).state.hasMoreBooks = w.state.hasMoreBooks
    ∧ (toggleView env w).state.hasMoreBooks = w.state.hasMoreBooks
    ∧ (∀ i r, w.state.hasMoreBooks = false →
        (deliver env w i r).state.hasMoreBooks = false) := by
  refine ⟨?_, ?_, ?_, ?_, ?_, ?_, ?_, ?_, ?_, ?_, ?_⟩
  · intro ev h
    exact step_of_done env w ev h
  · intro events h
    have hrun := run_of_done env w events h
    refine ⟨hrun.1, hrun.2, ?_⟩
    unfold loadMoreBooks
    rw [if_pos (by simp [hrun.1])]
  · intro i pending data hp hshort
    simp only [step]
    rw [deliver_hasMoreBooks env w i _ pending hp]
    simp [returnedBooks, hshort]
  · simp [initializeAppStart, fetchBooksStart_state]
  · exact loadMoreBooks_hasMoreBooks w
  · intro a b c
    exact handleScroll_hasMoreBooks w a b c
  · intro value
    simp [handleSearch, filterAndSortBooks, renderBooks_eq]
  · intro value
    simp [handleSort, filterAndSortBooks, renderBooks_eq]
  · simp [resetFilters, renderBooks_eq]
  · simp [toggleView, renderBooks_eq]
  · intro i r h
    exact deliver_hasMoreBooks_false env w i r h

/-- The statement of C5 at a concrete input: once the first page has arrived
with four records, scrolling, typing and toggling send no further request. -/
theorem hasMoreBooks_stays_false_witness :
    (run asciiEnv (boot emptyPage)
        [Event.response 0 (FetchResult.ok (some fourPage))]).state.hasMoreBooks = false
    ∧ (run asciiEnv
        (run asciiEnv (boot emptyPage) [Event.response 0 (FetchResult.ok (some fourPage))])
        [Event.scroll 0 0 0, Event.input "emma".toList, Event.click,
         Event.scroll 900 1000 200]).requests
      = [{ limit := 9, page := 1 }] :=
  ⟨by decide,
   ((hasMoreBooks_stays_false asciiEnv
      (run asciiEnv (boot emptyPage)
        [Event.response 0 (FetchResult.ok (some fourPage))])).2.1
      [Event.scroll 0 0 0, Event.input "emma".toList, Event.click,
       Event.scroll 900 1000 200] (by decide)).2.1.trans (by decide)⟩

/-- C10: in every reachable state the pages requested from the catalog API are
1, 2, ..., n in this order, none twice and none skipped; at most one fetch is
in flight, so the responses arrive in the order of the requests, for the pages
1, 2, ..., m with m = n or m + 1 = n; and the accumulated list is the
concatenation, in that order, of the records returned by the successful
fetches. -/
theorem requests_consecutive (env : Env) (w : World) (h : Reachable env w) :
    w.requests.map Request.page = List.range' 1 w.requests.length
    ∧ (w.requests.map Request.page).Nodup
    ∧ w.inflight.length ≤ 1
    ∧ w.completed.map (fun c => c.1.page) = List.range' 1 w.completed.length
    ∧ w.completed.length + w.inflight.length = w.requests.length
    ∧ w.state.books
        = ((w.completed.filter (fun c => succeeded c.2)).map
            (fun c => returnedBooks c.2)).flatten := by
  have hinv := inv_of_reachable env h
  refine ⟨hinv.pages, ?_, ?_, hinv.answered, ?_, ?_⟩
  · rw [hinv.pages]
    exact List.nodup_range' 1 _
  · rcases hinv.flight with ⟨h1, _, _⟩ | ⟨_, h1, _, _, _, _⟩ <;> rw [h1] <;> simp
  · rcases hinv.flight with ⟨h1, _, h3⟩ | ⟨_, h1, _, _, h4, _⟩ <;> rw [h1] <;> simp <;> omega
  · rw [flatten_returnedBooks_filter]
    exact hinv.books

/-- The statement of C10 at a concrete input: two pages fetched, a third fetch
failed; the pages requested are 1, 2, 3. -/
theorem requests_consecutive_witness :
    (run asciiEnv (boot emptyPage)
        [Event.response 0 (FetchResult.ok (some ninePage)), Event.scroll 0 0 0,
         Event.click, Event.response 0 (FetchResult.ok (some ninePage)),
         Event.scroll 0 0 0, Event.response 0 (FetchResult.httpError 500),
         Event.scroll 0 0 0]).requests.map Request.page = [1, 2, 3] :=
  (requests_consecutive asciiEnv _
    (reachable_run asciiEnv (Reachable.boot emptyPage)
      [Event.response 0 (FetchResult.ok (some ninePage)), Event.scroll 0 0 0,
       Event.click, Event.response 0 (FetchResult.ok (some ninePage)),
       Event.scroll 0 0 0, Event.response 0 (FetchResult.httpError 500),
       Event.scroll 0 0 0])).1.trans (by decide)


/-- A call of `handleScroll` with the document scrolled to the bottom is a call of
`loadMoreBooks`. -/
theorem handleScroll_at_bottom (w : World) : handleScroll w 0 0 0 = loadMoreBooks w := by
  unfold handleScroll
  split
  · rename_i hg
    unfold loadMoreBooks
    rw [if_pos hg]
  · rw [if_pos (by decide)]

/-- The failure of a load-more at a concrete input: the second page fails with
status 500 and the surface shows one error message after the nine cards. -/
theorem loadMore_failure_shows_error_witness :
    errorMessageCount
        (step asciiEnv
          (run asciiEnv (boot emptyPage)
            [Event.response 0 (FetchResult.ok (some ninePage)), Event.scroll 0 0 0])
          (Event.response 0 (FetchResult.httpError 500))).dom.booksContainer = 1 :=
  (loadMore_failure_shows_error asciiEnv
    (run asciiEnv (boot emptyPage)
      [Event.response 0 (FetchResult.ok (some ninePage)), Event.scroll 0 0 0])
    (reachable_run asciiEnv (Reachable.boot emptyPage)
      [Event.response 0 (FetchResult.ok (some ninePage)), Event.scroll 0 0 0])
    { caller := Caller.loadMoreBooks, request := { limit := 9, page := 2 } }
    (by decide) rfl (FetchResult.httpError 500) rfl).2.2.2

end BookListing
